import Mathlib

/-!
# Orion image provider (`src/model/imageprovider.cpp`)

A shallow embedding of the download coordinator `ImageProvider` and of the
objects it drives.  Every method of the class becomes a function on an explicit
`State`; a method that returns a value returns it next to the new state, and the
slot `individualDownloadComplete`, which returns nothing, returns whether it
executed `emit downloadComplete()`.

Modelling conventions
* `QString` is `String`; `QSet<QString>` is `Finset String`; `QHash<QString, QImage*>`
  is an association list whose values are `Option QImage` (`none` is a null pointer).
* The file system is an association list from files to contents.  Which file a
  path names is decided by the file system (`Env.fileOf`): two paths may name the
  same file, as `pog.png` and `./pog.png` do.  `QFile::open(WriteOnly)` creates or
  truncates the file when it succeeds and leaves the disk alone when it fails
  (`Env.canOpen`); `QFile::remove` deletes the file.
* `QString::arg` and the image codec behind `QImage::load` are parameters (`Env`).
* `activeDownloadCount` is declared in `imageprovider.h`; it is an unbounded `Int` here.
* A `DownloadHandler` is driven by the signals of the reply it is connected to
  (`ReplyEvent`); its slots act on the handler and on its file, and `replyFinished`
  returns the `downloadComplete(filename, hadError)` signals it emits.
-/

namespace Orion

/-- Contents of a file. -/
abbrev Bytes := List Nat

/-- A `QImage` value: pixel dimensions and pixel data. -/
structure QImage where
  width : Nat
  height : Nat
  pixels : List Nat
deriving DecidableEq, Repr

/-- The null image `QImage()`. -/
def QImage.null : QImage := ⟨0, 0, []⟩

namespace Table

/-- Value stored under `k` (`QHash::find`, reading a file of the disk). -/
def lookup {V : Type} : List (String × V) → String → Option V
  | [], _ => none
  | (k', v) :: rest, k => if k' = k then some v else lookup rest k

/-- Membership test (`QHash::contains`, `QFile::exists`). -/
def contains {V : Type} (m : List (String × V)) (k : String) : Bool :=
  (lookup m k).isSome

/-- Removal of the entry of `k` (`QFile::remove`). -/
def remove {V : Type} (m : List (String × V)) (k : String) : List (String × V) :=
  m.filter (fun e => decide (e.1 ≠ k))

/-- Insertion replacing the value of an existing key (`QHash::insert`). -/
def insert {V : Type} (m : List (String × V)) (k : String) (v : V) : List (String × V) :=
  (k, v) :: remove m k

/-- The keys of the table. -/
def keys {V : Type} (m : List (String × V)) : List String :=
  m.map Prod.fst

end Table

/-- Constructor arguments of `ImageProvider` and what the class takes from its
platform: `arg` is `QString::arg`; `decode` is the image codec used by
`QImage::load` (`none` when the bytes are not a valid image); `fileOf path` is the
file that the file system finds under the name `path`, so that two paths name
the same file exactly when they have the same `fileOf`; `canOpen path` tells
whether `QFile::open(QFile::WriteOnly)` succeeds on `path`, which it does not
when, for instance, the directory of the file does not exist. -/
structure Env where
  _urlFormat : String
  _cacheDir : String
  _extension : String
  arg : String → String → String
  decode : Bytes → Option QImage
  fileOf : String → String
  canOpen : String → Bool

/-- The members of a `DownloadHandler`; `isOpen` is the state of its `_file`, the
file named `filename`. -/
structure DownloadHandler where
  filename : String
  key : String
  hadError : Bool
  isOpen : Bool
deriving DecidableEq, Repr

/-- State of an `ImageProvider` together with the parts of the world it acts on:
`disk` is the file system, `requests` the URLs handed to `_manager.get` so far
and `handlers` the `DownloadHandler` objects that are allocated and connected. -/
structure State where
  _imageTable : List (String × Option QImage)
  currentlyDownloading : Finset String
  activeDownloadCount : Int
  disk : List (String × Bytes)
  requests : List String
  handlers : List DownloadHandler
deriving DecidableEq

/-- The state left by the constructor of `ImageProvider`, over a given disk. -/
def init (disk : List (String × Bytes)) : State :=
  { _imageTable := [], currentlyDownloading := ∅, activeDownloadCount := 0,
    disk := disk, requests := [], handlers := [] }

/-- `QDir::absoluteFilePath` for a relative file name. -/
def absoluteFilePath (dir name : String) : String :=
  dir ++ "/" ++ name

/-- `QFile::exists`: whether the file named `path` exists. -/
def QFile_exists (env : Env) (disk : List (String × Bytes)) (path : String) : Bool :=
  Table.contains disk (env.fileOf path)

/-- `QDir::exists(name)`: whether the file `name` of directory `dir` exists. -/
def QDir_exists (env : Env) (disk : List (String × Bytes)) (dir name : String) : Bool :=
  QFile_exists env disk (absoluteFilePath dir name)

/-- `QFile::remove`: the disk without the file named `path`. -/
def QFile_remove (env : Env) (disk : List (String × Bytes)) (path : String) :
    List (String × Bytes) :=
  Table.remove disk (env.fileOf path)

/-- `QFile::open(QFile::WriteOnly)`: the return value and the disk afterwards.  On
success the file exists and is empty; on failure nothing changes. -/
def QFile_open (env : Env) (disk : List (String × Bytes)) (path : String) :
    Bool × List (String × Bytes) :=
  if env.canOpen path then (true, Table.insert disk (env.fileOf path) []) else (false, disk)

/-- `QFile::write` on a file that is open: the buffer is appended.  Nothing is
visible on disk when the file has been removed in the meantime. -/
def QFile_write (env : Env) (disk : List (String × Bytes)) (path : String) (buffer : Bytes) :
    List (String × Bytes) :=
  match Table.lookup disk (env.fileOf path) with
  | some contents => Table.insert disk (env.fileOf path) (contents ++ buffer)
  | none => disk

/-- The path under which the image of `key` is cached. -/
def cacheFile (env : Env) (key : String) : String :=
  absoluteFilePath env._cacheDir (key ++ env._extension)

/-- The file in which the image of `key` is cached.  Two keys may share it. -/
def cacheFileOf (env : Env) (key : String) : String :=
  env.fileOf (cacheFile env key)

/-- `QImage::load` on a fresh `QImage`: the return value of `load` and the image
afterwards, which is the decoded file, or the null image when the file is
missing or is not a valid image. -/
def QImage_load (env : Env) (disk : List (String × Bytes)) (filename : String) :
    Bool × QImage :=
  match Table.lookup disk (env.fileOf filename) with
  | none => (false, QImage.null)
  | some bytes =>
    match env.decode bytes with
    | none => (false, QImage.null)
    | some img => (true, img)

/-- `ImageProvider::loadImageFile`; the return value of `load` is not looked at. -/
def loadImageFile (env : Env) (emoteKey filename : String) (s : State) : State :=
  let emoteImg := (QImage_load env s.disk filename).2
  { s with _imageTable := Table.insert s._imageTable emoteKey (some emoteImg) }

/-- The constructor `DownloadHandler::DownloadHandler`: the new handler and the
disk after `_file.open(QFile::WriteOnly)`, whose return value the constructor
does not look at. -/
def DownloadHandler.construct (env : Env) (filename key : String)
    (disk : List (String × Bytes)) : DownloadHandler × List (String × Bytes) :=
  let opened := QFile_open env disk filename
  (⟨filename, key, false, opened.1⟩, opened.2)

/-- `ImageProvider::download`: the returned boolean is the return value.
`_cacheDir.mkpath(".")` creates the cache directory itself, which the disk does
not record; whether a file of it can then be opened is `Env.canOpen`. -/
def download (env : Env) (key : String) (s : State) : Bool × State :=
  if Table.contains s._imageTable key then
    (false, s)
  else
    let url := env.arg env._urlFormat key
    let filename := absoluteFilePath env._cacheDir (key ++ env._extension)
    if QDir_exists env s.disk env._cacheDir (key ++ env._extension) then
      (false, loadImageFile env key filename s)
    else
      let made := DownloadHandler.construct env filename key s.disk
      (true, { s with requests := s.requests ++ [url],
                      disk := made.2,
                      handlers := s.handlers ++ [made.1] })

/-- `ImageProvider::makeAvailable`: the returned boolean is the return value. -/
def makeAvailable (env : Env) (key : String) (s : State) : Bool × State :=
  if key ∈ s.currentlyDownloading then
    (true, s)
  else
    match download env key s with
    | (true, s') =>
      (true, { s' with currentlyDownloading := insert key s'.currentlyDownloading,
                       activeDownloadCount := s'.activeDownloadCount + 1 })
    | (false, s') => (false, s')

/-- The `for` loop of `ImageProvider::bulkDownload`, `w` being `waitForDownloadComplete`. -/
def bulkDownloadLoop (env : Env) : List String → Bool → State → Bool × State
  | [], w, s => (w, s)
  | key :: rest, w, s =>
    match makeAvailable env key s with
    | (true, s') => bulkDownloadLoop env rest true s'
    | (false, s') => bulkDownloadLoop env rest w s'

/-- `ImageProvider::bulkDownload`. -/
def bulkDownload (env : Env) (keys : List String) (s : State) : Bool × State :=
  bulkDownloadLoop env keys false s

/-- `ImageProvider::individualDownloadComplete`, `dh` being the sender of the
signal.  The returned boolean tells whether `downloadComplete()` was emitted. -/
def individualDownloadComplete (env : Env) (dh : DownloadHandler) (filename : String)
    (hadError : Bool) (s : State) : Bool × State :=
  let emoteKey := dh.key
  let s1 := { s with handlers := s.handlers.erase dh }
  let s2 := if hadError then { s1 with disk := QFile_remove env s1.disk filename }
            else loadImageFile env emoteKey filename s1
  let s3 := if s2.activeDownloadCount > 0 then
              { s2 with activeDownloadCount := s2.activeDownloadCount - 1 }
            else s2
  let s4 := { s3 with currentlyDownloading := s3.currentlyDownloading.erase emoteKey }
  (decide (s4.activeDownloadCount = 0), s4)

/-- `makeAvailable(key)` called `n` times in a row: the return values in call order
and the final state. -/
def makeAvailableTimes (env : Env) (key : String) : Nat → State → List Bool × State
  | 0, s => ([], s)
  | n + 1, s =>
    let r := makeAvailable env key s
    let rest := makeAvailableTimes env key n r.2
    (r.1 :: rest.1, rest.2)

/-- Return values of `makeAvailable` called on the keys of a list one after the other. -/
def callResults (env : Env) : List String → State → List Bool
  | [], _ => []
  | key :: rest, s =>
    (makeAvailable env key s).1 :: callResults env rest (makeAvailable env key s).2

/-- Terminal callbacks delivered one after the other, each by its own handler
with its own `hadError`: for every callback whether it emitted
`downloadComplete()`, and the final state. -/
def runCallbacks (env : Env) : List (DownloadHandler × Bool) → State → List Bool × State
  | [], s => ([], s)
  | (dh, hadError) :: rest, s =>
    let r := individualDownloadComplete env dh dh.filename hadError s
    let after := runCallbacks env rest r.2
    (r.1 :: after.1, after.2)

/-- One event in the life of the provider: a call of `makeAvailable`, a call of
`bulkDownload`, the terminal callback of a handler that is still connected (the
callback deletes the handler, so each started session is completed at most
once), or a change of the files on disk (bytes written by the handlers, or any
other change made by the environment). -/
inductive Step (env : Env) : State → State → Prop
  | call (s : State) (key : String) : Step env s (makeAvailable env key s).2
  | bulk (s : State) (keys : List String) : Step env s (bulkDownload env keys s).2
  | callback (s : State) (dh : DownloadHandler) (hadError : Bool) (hlive : dh ∈ s.handlers) :
      Step env s (individualDownloadComplete env dh dh.filename hadError s).2
  | files (s : State) (d : List (String × Bytes)) : Step env s { s with disk := d }

/-- States reachable from a freshly constructed provider. -/
inductive Reachable (env : Env) : State → Prop
  | start (disk : List (String × Bytes)) : Reachable env (init disk)
  | next {s t : State} (hs : Reachable env s) (hst : Step env s t) : Reachable env t

/-- No download in flight. -/
def Idle (s : State) : Prop :=
  s.activeDownloadCount = 0 ∧ s.currentlyDownloading = ∅ ∧ s.handlers = []

/-- The bookkeeping invariant of the provider: the counter is the size of
`currentlyDownloading`, whose keys are those of the connected handlers, one
handler per key, none of them in the image table, each writing to the cache
file of its key. -/
structure Inv (env : Env) (s : State) : Prop where
  count : s.activeDownloadCount = s.currentlyDownloading.card
  live : ∀ k, k ∈ s.currentlyDownloading ↔ k ∈ s.handlers.map DownloadHandler.key
  nodup : (s.handlers.map DownloadHandler.key).Nodup
  fresh : ∀ k ∈ s.currentlyDownloading, Table.contains s._imageTable k = false
  file : ∀ dh ∈ s.handlers, dh.filename = cacheFile env dh.key

/-- The segments of a path, which are separated by slashes. -/
def pathSegments : List Char → List (List Char)
  | [] => [[]]
  | c :: rest =>
    if c = '/' then [] :: pathSegments rest
    else
      match pathSegments rest with
      | [] => [[c]]
      | segment :: more => (c :: segment) :: more

/-- The segments of a path that name something: not the empty ones, not `.`. -/
def namingSegments (path : String) : List (List Char) :=
  (pathSegments path.data).filter (fun segment => decide (segment ≠ [] ∧ segment ≠ ['.']))

/-- A path without its empty and `.` segments, such as `/cache/pog.png` for
`/cache/./pog.png`. -/
def cleanPath (path : String) : String :=
  String.mk ((namingSegments path).foldr (fun segment acc => '/' :: (segment ++ acc)) [])

/-- A concrete environment.  The codec rejects the empty file and accepts
everything else as a one-pixel image; paths that differ only in empty and `.`
segments name the same file; the only directory is `/cache`, so that a file can
be opened exactly when it lies directly in `/cache`. -/
def demoEnv : Env :=
  { _urlFormat := "https://cdn.example/", _cacheDir := "/cache", _extension := ".png",
    arg := fun format key => format ++ key,
    decode := fun bytes => match bytes with
      | [] => none
      | b :: rest => some ⟨1, 1, b :: rest⟩,
    fileOf := cleanPath,
    canOpen := fun path => match namingSegments path with
      | [dir, _] => decide (dir = ['c', 'a', 'c', 'h', 'e'])
      | _ => false }

/-- The handler that `download` creates for `key`. -/
def handlerFor (env : Env) (key : String) : DownloadHandler :=
  ⟨cacheFile env key, key, false, env.canOpen (cacheFile env key)⟩

/-- `ImageProvider::downloadsInProgress`: the return value and the state afterwards. -/
def downloadsInProgress (s : State) : Bool × State :=
  (decide (s.activeDownloadCount > 0), s)

/-- A `QSize`. -/
structure QSize where
  width : Nat
  height : Nat
deriving DecidableEq, Repr

/-- `QImage::size`. -/
def QImage.size (img : QImage) : QSize :=
  ⟨img.width, img.height⟩

/-- The member of a `CachedImageProvider`: the image table it refers to. -/
structure CachedImageProvider where
  imageTable : List (String × Option QImage)
deriving DecidableEq

/-- `ImageProvider::getQMLImageProvider`. -/
def getQMLImageProvider (s : State) : CachedImageProvider :=
  ⟨s._imageTable⟩

/-- `CachedImageProvider::requestImage`.  The out-parameter `size` is `none` for a
null pointer and `some v` for a pointer to a `QSize` holding `v`.  The result
is the returned image, the out-parameter afterwards, and the provider afterwards. -/
def CachedImageProvider.requestImage (p : CachedImageProvider) (id : String)
    (size : Option QSize) (_requestedSize : QSize) :
    QImage × Option QSize × CachedImageProvider :=
  let entry : Option QImage :=
    match Table.lookup p.imageTable id with
    | some e => e
    | none => none
  match entry with
  | some img =>
    let size' := match size with
      | some _ => some img.size
      | none => none
    (img, size', p)
  | none => (QImage.null, size, p)

/-- The signals of a `QNetworkReply` that `download` connects to the handler:
`readyRead` (with the bytes that `readAll` will return), `error` (with the error
code) and `finished`. -/
inductive ReplyEvent where
  | readyRead (buffer : Bytes)
  | error (code : Nat)
  | finished
deriving DecidableEq, Repr

/-- `DownloadHandler::dataAvailable`, `buffer` being the result of
`_reply->readAll()`: `_file.write` writes only to a file that is open. -/
def DownloadHandler.dataAvailable (env : Env) (dh : DownloadHandler) (buffer : Bytes)
    (disk : List (String × Bytes)) : List (String × Bytes) :=
  if dh.isOpen then QFile_write env disk dh.filename buffer else disk

/-- `DownloadHandler::error`. -/
def DownloadHandler.error (dh : DownloadHandler) (_code : Nat) : DownloadHandler :=
  { dh with hadError := true }

/-- `DownloadHandler::replyFinished`: the handler afterwards, its file closed, and
the `downloadComplete(filename, hadError)` signals it emits.  `senderIsReply`
tells whether `sender()` is a `QNetworkReply`. -/
def DownloadHandler.replyFinished (dh : DownloadHandler) (senderIsReply : Bool) :
    DownloadHandler × List (String × Bool) :=
  if senderIsReply then ({ dh with isOpen := false }, [(dh.filename, dh.hadError)])
  else (dh, [])

/-- Delivery of one signal of the connected reply to the handler: the handler and
the disk afterwards, and the signals the handler emitted. -/
def DownloadHandler.deliver (env : Env) (dh : DownloadHandler) (disk : List (String × Bytes)) :
    ReplyEvent → DownloadHandler × List (String × Bytes) × List (String × Bool)
  | ReplyEvent.readyRead buffer => (dh, dh.dataAvailable env buffer disk, [])
  | ReplyEvent.error code => (dh.error code, disk, [])
  | ReplyEvent.finished => ((dh.replyFinished true).1, disk, (dh.replyFinished true).2)

/-- Delivery of a sequence of signals, one after the other: the handler and the
disk at the end, and for every signal delivered what the handler emitted. -/
def DownloadHandler.run (env : Env) (dh : DownloadHandler) (disk : List (String × Bytes)) :
    List ReplyEvent → DownloadHandler × List (String × Bytes) × List (List (String × Bool))
  | [] => (dh, disk, [])
  | ev :: rest =>
    let r := dh.deliver env disk ev
    let after := DownloadHandler.run env r.1 r.2.1 rest
    (after.1, after.2.1, r.2.2 :: after.2.2)

/-- The byte chunks of an event sequence, concatenated in arrival order. -/
def chunksOf : List ReplyEvent → Bytes
  | [] => []
  | ReplyEvent.readyRead buffer :: rest => buffer ++ chunksOf rest
  | _ :: rest => chunksOf rest

/-- Whether the sequence consists of chunk and transport-error events only. -/
def beforeFinished : List ReplyEvent → Bool
  | [] => true
  | ReplyEvent.finished :: _ => false
  | _ :: rest => beforeFinished rest

/-- Whether a transport-error event occurs in the sequence. -/
def hasError : List ReplyEvent → Bool
  | [] => false
  | ReplyEvent.error _ :: _ => true
  | _ :: rest => hasError rest

/-- Whether `makeAvailable(key)` takes the branch that loads the cache file. -/
def cachedCase (env : Env) (key : String) (s : State) : Bool :=
  decide (key ∉ s.currentlyDownloading) && !Table.contains s._imageTable key &&
    QFile_exists env s.disk (cacheFile env key)

/-- Whether `makeAvailable(key)` takes the branch that starts a download. -/
def missCase (env : Env) (key : String) (s : State) : Bool :=
  decide (key ∉ s.currentlyDownloading) && !Table.contains s._imageTable key &&
    !QFile_exists env s.disk (cacheFile env key)

/-- Two states with the same contents: the same image under every key, the same
`currentlyDownloading`, the same `activeDownloadCount`, the same contents of
every file, and the same GET requests and handlers up to their order. -/
def SameContents (s t : State) : Prop :=
  (∀ k, Table.lookup s._imageTable k = Table.lookup t._imageTable k) ∧
  s.currentlyDownloading = t.currentlyDownloading ∧
  s.activeDownloadCount = t.activeDownloadCount ∧
  (∀ f, Table.lookup s.disk f = Table.lookup t.disk f) ∧
  s.requests.Perm t.requests ∧
  s.handlers.Perm t.handlers

/-- Events that lead from `s` to `t` and concern neither the key `k` nor its cache
file: calls of `makeAvailable` and of `bulkDownload` for keys cached in other
files, and terminal callbacks of running sessions of other keys. -/
inductive Elsewhere (env : Env) (k : String) : State → State → Prop
  | done (s : State) : Elsewhere env k s s
  | call {s t : State} (key : String) (hfile : cacheFileOf env key ≠ cacheFileOf env k)
      (h : Elsewhere env k s t) : Elsewhere env k s (makeAvailable env key t).2
  | bulk {s t : State} (keys : List String)
      (hfile : ∀ key ∈ keys, cacheFileOf env key ≠ cacheFileOf env k)
      (h : Elsewhere env k s t) : Elsewhere env k s (bulkDownload env keys t).2
  | callback {s t : State} (dh : DownloadHandler) (hadError : Bool) (hlive : dh ∈ t.handlers)
      (hne : dh.key ≠ k) (h : Elsewhere env k s t) :
      Elsewhere env k s (individualDownloadComplete env dh dh.filename hadError t).2

/-! ## Tables -/

namespace Table

theorem lookup_remove_self {V : Type} (m : List (String × V)) (k : String) :
    lookup (remove m k) k = none := by
  induction m with
  | nil => rfl
  | cons e rest ih =>
    obtain ⟨k', v⟩ := e
    by_cases h : k' = k
    · simpa [remove, List.filter_cons, h] using ih
    · simpa [remove, List.filter_cons, h, lookup] using ih

theorem lookup_remove_ne {V : Type} (m : List (String × V)) {k k' : String} (hne : k ≠ k') :
    lookup (remove m k) k' = lookup m k' := by
  induction m with
  | nil => rfl
  | cons e rest ih =>
    obtain ⟨k0, v⟩ := e
    by_cases h : k0 = k
    · subst h
      simpa [remove, List.filter_cons, lookup, hne] using ih
    · by_cases h' : k0 = k'
      · subst h'
        simp [remove, List.filter_cons, lookup, h]
      · simpa [remove, List.filter_cons, lookup, h, h'] using ih

theorem lookup_insert_self {V : Type} (m : List (String × V)) (k : String) (v : V) :
    lookup (insert m k v) k = some v := by
  simp [insert, lookup]

theorem lookup_insert_ne {V : Type} (m : List (String × V)) {k k' : String} (v : V)
    (hne : k ≠ k') : lookup (insert m k v) k' = lookup m k' := by
  simp [insert, lookup, hne, lookup_remove_ne m hne]

theorem contains_insert_self {V : Type} (m : List (String × V)) (k : String) (v : V) :
    contains (insert m k v) k = true := by
  simp [contains, lookup_insert_self]

theorem contains_insert_ne {V : Type} (m : List (String × V)) {k k' : String} (v : V)
    (hne : k ≠ k') : contains (insert m k v) k' = contains m k' := by
  simp [contains, lookup_insert_ne m v hne]

theorem contains_remove_self {V : Type} (m : List (String × V)) (k : String) :
    contains (remove m k) k = false := by
  simp [contains, lookup_remove_self]

end Table

/-! ## Files -/

theorem cacheFileOf_ne (env : Env) {k k' : String}
    (h : cacheFileOf env k ≠ cacheFileOf env k') : k ≠ k' :=
  fun e => h (e ▸ rfl)

theorem QFile_open_fst (env : Env) (disk : List (String × Bytes)) (path : String) :
    (QFile_open env disk path).1 = env.canOpen path := by
  unfold QFile_open
  cases env.canOpen path <;> rfl

theorem lookup_QFile_open_ne (env : Env) (disk : List (String × Bytes)) (path : String)
    {file : String} (h : env.fileOf path ≠ file) :
    Table.lookup (QFile_open env disk path).2 file = Table.lookup disk file := by
  unfold QFile_open
  cases env.canOpen path
  · rfl
  · exact Table.lookup_insert_ne _ _ h

theorem QFile_exists_open_ne (env : Env) (disk : List (String × Bytes)) {path path' : String}
    (h : env.fileOf path ≠ env.fileOf path') :
    QFile_exists env (QFile_open env disk path).2 path' = QFile_exists env disk path' := by
  unfold QFile_exists Table.contains
  rw [lookup_QFile_open_ne env disk path h]

/-! ## The four cases of `makeAvailable` -/

theorem makeAvailable_inflight (env : Env) (k : String) (s : State)
    (hk : k ∈ s.currentlyDownloading) : makeAvailable env k s = (true, s) := by
  simp [makeAvailable, hk]

theorem makeAvailable_loaded (env : Env) (k : String) (s : State)
    (hk : k ∉ s.currentlyDownloading) (ht : Table.contains s._imageTable k = true) :
    makeAvailable env k s = (false, s) := by
  simp [makeAvailable, download, hk, ht]

theorem makeAvailable_cached (env : Env) (k : String) (s : State)
    (hk : k ∉ s.currentlyDownloading) (ht : Table.contains s._imageTable k = false)
    (hf : QDir_exists env s.disk env._cacheDir (k ++ env._extension) = true) :
    makeAvailable env k s = (false, loadImageFile env k (cacheFile env k) s) := by
  simp [makeAvailable, download, hk, ht, hf, cacheFile]

theorem makeAvailable_miss (env : Env) (k : String) (s : State)
    (hk : k ∉ s.currentlyDownloading) (ht : Table.contains s._imageTable k = false)
    (hf : QDir_exists env s.disk env._cacheDir (k ++ env._extension) = false) :
    makeAvailable env k s =
      (true, { s with requests := s.requests ++ [env.arg env._urlFormat k],
                      disk := (QFile_open env s.disk (cacheFile env k)).2,
                      handlers := s.handlers ++ [handlerFor env k],
                      currentlyDownloading := insert k s.currentlyDownloading,
                      activeDownloadCount := s.activeDownloadCount + 1 }) := by
  simp [makeAvailable, download, hk, ht, hf, cacheFile, handlerFor, DownloadHandler.construct,
    QFile_open_fst]

/-! ## The terminal callback, field by field -/

theorem idc_count (env : Env) (dh : DownloadHandler) (filename : String) (hadError : Bool)
    (s : State) :
    (individualDownloadComplete env dh filename hadError s).2.activeDownloadCount =
      if s.activeDownloadCount > 0 then s.activeDownloadCount - 1 else s.activeDownloadCount := by
  cases hadError <;> by_cases h : s.activeDownloadCount > 0 <;>
    simp [individualDownloadComplete, loadImageFile, h]

theorem idc_emit (env : Env) (dh : DownloadHandler) (filename : String) (hadError : Bool)
    (s : State) :
    (individualDownloadComplete env dh filename hadError s).1 =
      decide ((individualDownloadComplete env dh filename hadError s).2.activeDownloadCount = 0) := by
  rfl

theorem idc_currentlyDownloading (env : Env) (dh : DownloadHandler) (filename : String)
    (hadError : Bool) (s : State) :
    (individualDownloadComplete env dh filename hadError s).2.currentlyDownloading =
      s.currentlyDownloading.erase dh.key := by
  cases hadError <;> by_cases h : s.activeDownloadCount > 0 <;>
    simp [individualDownloadComplete, loadImageFile, h]

theorem idc_handlers (env : Env) (dh : DownloadHandler) (filename : String)
    (hadError : Bool) (s : State) :
    (individualDownloadComplete env dh filename hadError s).2.handlers = s.handlers.erase dh := by
  cases hadError <;> by_cases h : s.activeDownloadCount > 0 <;>
    simp [individualDownloadComplete, loadImageFile, h]

theorem idc_requests (env : Env) (dh : DownloadHandler) (filename : String)
    (hadError : Bool) (s : State) :
    (individualDownloadComplete env dh filename hadError s).2.requests = s.requests := by
  cases hadError <;> by_cases h : s.activeDownloadCount > 0 <;>
    simp [individualDownloadComplete, loadImageFile, h]

theorem idc_table_error (env : Env) (dh : DownloadHandler) (filename : String) (s : State) :
    (individualDownloadComplete env dh filename true s).2._imageTable = s._imageTable := by
  by_cases h : s.activeDownloadCount > 0 <;> simp [individualDownloadComplete, h]

theorem idc_table_success (env : Env) (dh : DownloadHandler) (filename : String) (s : State) :
    (individualDownloadComplete env dh filename false s).2._imageTable =
      Table.insert s._imageTable dh.key (some (QImage_load env s.disk filename).2) := by
  by_cases h : s.activeDownloadCount > 0 <;>
    simp [individualDownloadComplete, loadImageFile, h]

theorem idc_disk_error (env : Env) (dh : DownloadHandler) (filename : String) (s : State) :
    (individualDownloadComplete env dh filename true s).2.disk =
      QFile_remove env s.disk filename := by
  by_cases h : s.activeDownloadCount > 0 <;> simp [individualDownloadComplete, h]

/-! ## The bookkeeping invariant holds in every reachable state -/

theorem inv_init (env : Env) (disk : List (String × Bytes)) : Inv env (init disk) := by
  constructor <;> simp [init]

theorem inv_loadImageFile (env : Env) (k filename : String) (s : State) (h : Inv env s)
    (hk : k ∉ s.currentlyDownloading) : Inv env (loadImageFile env k filename s) := by
  refine ⟨h.count, h.live, h.nodup, ?_, h.file⟩
  intro k' hk'
  have hne : k ≠ k' := fun e => hk (e ▸ hk')
  show Table.contains (Table.insert s._imageTable k _) k' = false
  rw [Table.contains_insert_ne _ _ hne]
  exact h.fresh k' hk'

theorem inv_makeAvailable (env : Env) (k : String) (s : State) (h : Inv env s) :
    Inv env (makeAvailable env k s).2 := by
  by_cases hk : k ∈ s.currentlyDownloading
  · rw [makeAvailable_inflight env k s hk]; exact h
  by_cases ht : Table.contains s._imageTable k = true
  · rw [makeAvailable_loaded env k s hk ht]; exact h
  have ht' : Table.contains s._imageTable k = false := by simpa using ht
  by_cases hf : QDir_exists env s.disk env._cacheDir (k ++ env._extension) = true
  · rw [makeAvailable_cached env k s hk ht' hf]
    exact inv_loadImageFile env k _ s h hk
  have hf' : QDir_exists env s.disk env._cacheDir (k ++ env._extension) = false := by simpa using hf
  rw [makeAvailable_miss env k s hk ht' hf']
  have hnot : k ∉ s.handlers.map DownloadHandler.key := fun hm => hk ((h.live k).2 hm)
  constructor
  · show s.activeDownloadCount + 1 = ((insert k s.currentlyDownloading).card : Int)
    rw [Finset.card_insert_of_not_mem hk, h.count]
    push_cast
    rfl
  · intro k'
    show k' ∈ insert k s.currentlyDownloading ↔
      k' ∈ (s.handlers ++ [handlerFor env k]).map DownloadHandler.key
    rw [Finset.mem_insert, h.live k', List.map_append, List.mem_append]
    simp [handlerFor, or_comm]
  · show ((s.handlers ++ [handlerFor env k]).map DownloadHandler.key).Nodup
    rw [List.map_append, List.nodup_append]
    refine ⟨h.nodup, by simp, ?_⟩
    intro a ha hb
    have : a = k := by simpa [handlerFor] using hb
    exact hnot (this ▸ ha)
  · intro k' hk'
    show Table.contains s._imageTable k' = false
    have hk'' : k' ∈ insert k s.currentlyDownloading := hk'
    rcases Finset.mem_insert.1 hk'' with e | hin
    · rw [e]; exact ht'
    · exact h.fresh k' hin
  · intro dh hdh
    have hdh' : dh ∈ s.handlers ++ [handlerFor env k] := hdh
    rcases List.mem_append.1 hdh' with hin | hin
    · exact h.file dh hin
    · have : dh = handlerFor env k := by simpa using hin
      rw [this]; rfl

theorem inv_bulkDownloadLoop (env : Env) (keys : List String) (w : Bool) (s : State)
    (h : Inv env s) : Inv env (bulkDownloadLoop env keys w s).2 := by
  induction keys generalizing w s with
  | nil => exact h
  | cons k rest ih =>
    have hk := inv_makeAvailable env k s h
    unfold bulkDownloadLoop
    rcases hm : makeAvailable env k s with ⟨r, s'⟩
    rw [hm] at hk
    cases r
    · exact ih _ _ hk
    · exact ih _ _ hk

theorem inv_callback (env : Env) (dh : DownloadHandler) (filename : String) (hadError : Bool)
    (s : State) (h : Inv env s) (hlive : dh ∈ s.handlers) :
    Inv env (individualDownloadComplete env dh filename hadError s).2 := by
  have hkey : dh.key ∈ s.currentlyDownloading :=
    (h.live dh.key).2 (List.mem_map_of_mem _ hlive)
  have hpos : 0 < s.currentlyDownloading.card := Finset.card_pos.2 ⟨_, hkey⟩
  have hnd : s.handlers.Nodup := List.Nodup.of_map _ h.nodup
  constructor
  · rw [idc_count, idc_currentlyDownloading, Finset.card_erase_of_mem hkey, h.count]
    have : (0 : Int) < (s.currentlyDownloading.card : Int) := by exact_mod_cast hpos
    rw [if_pos this]
    omega
  · intro k
    rw [idc_currentlyDownloading, idc_handlers, Finset.mem_erase, h.live k]
    constructor
    · rintro ⟨hne, hm⟩
      obtain ⟨d, hd, rfl⟩ := List.mem_map.1 hm
      refine List.mem_map.2 ⟨d, ?_, rfl⟩
      exact (hnd.mem_erase_iff).2 ⟨fun e => hne (e ▸ rfl), hd⟩
    · intro hm
      obtain ⟨d, hd, rfl⟩ := List.mem_map.1 hm
      obtain ⟨hne, hd'⟩ := (hnd.mem_erase_iff).1 hd
      refine ⟨?_, List.mem_map_of_mem _ hd'⟩
      intro e
      exact hne (List.inj_on_of_nodup_map h.nodup hd' hlive e)
  · rw [idc_handlers]
    exact h.nodup.sublist ((List.erase_sublist dh s.handlers).map _)
  · intro k hk
    rw [idc_currentlyDownloading] at hk
    obtain ⟨hne, hk'⟩ := Finset.mem_erase.1 hk
    cases hadError
    · rw [idc_table_success, Table.contains_insert_ne _ _ (Ne.symm hne)]
      exact h.fresh k hk'
    · rw [idc_table_error]
      exact h.fresh k hk'
  · intro d hd
    rw [idc_handlers] at hd
    exact h.file d (List.mem_of_mem_erase hd)

theorem inv_step (env : Env) {s t : State} (h : Inv env s) (hst : Step env s t) : Inv env t := by
  cases hst with
  | call key => exact inv_makeAvailable env key s h
  | bulk keys => exact inv_bulkDownloadLoop env keys false s h
  | callback dh hadError hlive => exact inv_callback env dh _ hadError s h hlive
  | files d => exact ⟨h.count, h.live, h.nodup, h.fresh, h.file⟩

theorem inv_of_reachable (env : Env) {s : State} (h : Reachable env s) : Inv env s := by
  induction h with
  | start disk => exact inv_init env disk
  | next _ hst ih => exact inv_step env ih hst

/-! ## `bulkDownload` as a fold -/

theorem bulkDownloadLoop_eq (env : Env) (keys : List String) (w : Bool) (s : State) :
    bulkDownloadLoop env keys w s =
      (w || (callResults env keys s).any id,
        keys.foldl (fun st k => (makeAvailable env k st).2) s) := by
  induction keys generalizing w s with
  | nil => simp [bulkDownloadLoop, callResults]
  | cons k rest ih =>
    unfold bulkDownloadLoop
    rcases hm : makeAvailable env k s with ⟨r, s'⟩
    cases r <;> simp [ih, callResults, hm]

/-! ## The claims -/

/-- C1 (dedup). When key `k` is not in the image table, has no cache file and is
not in `currentlyDownloading`, two consecutive calls `makeAvailable(k)` both
return true, the second call leaves the whole state unchanged, and together
they issue exactly one GET request, create exactly one `DownloadHandler` (the one
of `k`) and raise `activeDownloadCount` by exactly 1. -/
theorem makeAvailable_twice_one_session (env : Env) (k : String) (s : State)
    (ht : Table.contains s._imageTable k = false)
    (hf : QDir_exists env s.disk env._cacheDir (k ++ env._extension) = false)
    (hk : k ∉ s.currentlyDownloading) :
    (makeAvailable env k s).1 = true ∧
    (makeAvailable env k (makeAvailable env k s).2).1 = true ∧
    (makeAvailable env k (makeAvailable env k s).2).2 = (makeAvailable env k s).2 ∧
    (makeAvailable env k (makeAvailable env k s).2).2.requests =
      s.requests ++ [env.arg env._urlFormat k] ∧
    (makeAvailable env k (makeAvailable env k s).2).2.handlers =
      s.handlers ++ [handlerFor env k] ∧
    (makeAvailable env k (makeAvailable env k s).2).2.activeDownloadCount =
      s.activeDownloadCount + 1 := by
  have h1 := makeAvailable_miss env k s hk ht hf
  have hin : k ∈ (makeAvailable env k s).2.currentlyDownloading := by
    rw [h1]; exact Finset.mem_insert_self k _
  have h2 := makeAvailable_inflight env k _ hin
  rw [h2]
  refine ⟨by rw [h1], rfl, rfl, by rw [h1], by rw [h1], by rw [h1]⟩

theorem makeAvailable_twice_one_session_witness :
    Table.contains (init [])._imageTable "pog" = false ∧
    QDir_exists demoEnv (init []).disk demoEnv._cacheDir ("pog" ++ demoEnv._extension) = false ∧
    "pog" ∉ (init []).currentlyDownloading ∧
    (makeAvailable demoEnv "pog" (makeAvailable demoEnv "pog" (init [])).2).2 =
      (makeAvailable demoEnv "pog" (init [])).2 ∧
    (makeAvailable demoEnv "pog" (makeAvailable demoEnv "pog" (init [])).2).2.activeDownloadCount =
      (init []).activeDownloadCount + 1 :=
  ⟨by decide, by decide, by decide,
    (makeAvailable_twice_one_session demoEnv "pog" (init [])
      (by decide) (by decide) (by decide)).2.2.1,
    (makeAvailable_twice_one_session demoEnv "pog" (init [])
      (by decide) (by decide) (by decide)).2.2.2.2.2⟩

/-- C2 (quiescence). In every state reachable from a freshly constructed provider
by calls of `makeAvailable` and `bulkDownload` and by terminal callbacks
delivered once per started session, `activeDownloadCount` is not negative and
equals the number of keys in `currentlyDownloading`. -/
theorem activeDownloadCount_eq_card (env : Env) (s : State) (h : Reachable env s) :
    0 ≤ s.activeDownloadCount ∧
    s.activeDownloadCount = (s.currentlyDownloading.card : Int) := by
  have hi := inv_of_reachable env h
  refine ⟨?_, hi.count⟩
  rw [hi.count]
  exact Int.natCast_nonneg _

theorem activeDownloadCount_eq_card_witness :
    Reachable demoEnv (bulkDownload demoEnv ["pog", "kappa"] (init [])).2 ∧
    0 ≤ (bulkDownload demoEnv ["pog", "kappa"] (init [])).2.activeDownloadCount ∧
    (bulkDownload demoEnv ["pog", "kappa"] (init [])).2.activeDownloadCount =
      ((bulkDownload demoEnv ["pog", "kappa"] (init [])).2.currentlyDownloading.card : Int) :=
  ⟨Reachable.next (Reachable.start []) (Step.bulk _ _),
    activeDownloadCount_eq_card demoEnv _
      (Reachable.next (Reachable.start []) (Step.bulk _ _))⟩

/-! ## A bulk request of cache misses, and the callbacks that follow -/

theorem bulkDownloadLoop_all_miss (env : Env) (keys : List String) (w : Bool) (s : State)
    (hfiles : (keys.map (cacheFileOf env)).Nodup)
    (hmiss : ∀ k ∈ keys, k ∉ s.currentlyDownloading ∧ Table.contains s._imageTable k = false ∧
      QDir_exists env s.disk env._cacheDir (k ++ env._extension) = false) :
    (bulkDownloadLoop env keys w s).2.activeDownloadCount =
        s.activeDownloadCount + (keys.length : Int) ∧
    (bulkDownloadLoop env keys w s).2.handlers = s.handlers ++ keys.map (handlerFor env) ∧
    (bulkDownloadLoop env keys w s).2._imageTable = s._imageTable := by
  induction keys generalizing w s with
  | nil => simp [bulkDownloadLoop]
  | cons k rest ih =>
    obtain ⟨hk, ht, hf⟩ := hmiss k (List.mem_cons_self _ _)
    have hm := makeAvailable_miss env k s hk ht hf
    rw [List.map_cons, List.nodup_cons] at hfiles
    obtain ⟨hknot, hfiles'⟩ := hfiles
    unfold bulkDownloadLoop
    rw [hm]
    have hrest : ∀ k' ∈ rest,
        k' ∉ insert k s.currentlyDownloading ∧ Table.contains s._imageTable k' = false ∧
        QDir_exists env (QFile_open env s.disk (cacheFile env k)).2 env._cacheDir
          (k' ++ env._extension) = false := by
      intro k' hk'
      obtain ⟨hk1, ht1, hf1⟩ := hmiss k' (List.mem_cons_of_mem _ hk')
      have hfile : cacheFileOf env k ≠ cacheFileOf env k' :=
        fun e => hknot (e ▸ List.mem_map_of_mem _ hk')
      have hne : k ≠ k' := cacheFileOf_ne env hfile
      refine ⟨?_, ht1, ?_⟩
      · rw [Finset.mem_insert]
        rintro (e | hin)
        · exact hne e.symm
        · exact hk1 hin
      · exact (QFile_exists_open_ne env s.disk hfile).trans hf1
    obtain ⟨h1, h2, h3⟩ := ih true
      { s with requests := s.requests ++ [env.arg env._urlFormat k],
               disk := (QFile_open env s.disk (cacheFile env k)).2,
               handlers := s.handlers ++ [handlerFor env k],
               currentlyDownloading := insert k s.currentlyDownloading,
               activeDownloadCount := s.activeDownloadCount + 1 } hfiles' hrest
    refine ⟨?_, ?_, ?_⟩
    · rw [h1]
      show s.activeDownloadCount + 1 + (rest.length : Int) =
        s.activeDownloadCount + ((k :: rest).length : Int)
      rw [List.length_cons]
      push_cast
      ring
    · rw [h2]
      simp
    · rw [h3]

theorem runCallbacks_flags (env : Env) (order : List (DownloadHandler × Bool)) (s : State)
    (hcount : s.activeDownloadCount = (order.length : Int)) (hne : order ≠ []) :
    (runCallbacks env order s).1 = List.replicate (order.length - 1) false ++ [true] ∧
    (runCallbacks env order s).2.activeDownloadCount = 0 := by
  induction order generalizing s with
  | nil => exact absurd rfl hne
  | cons c rest ih =>
    obtain ⟨dh, e⟩ := c
    have hpos : s.activeDownloadCount > 0 := by
      rw [hcount, List.length_cons]; push_cast; omega
    have hafter : (individualDownloadComplete env dh dh.filename e s).2.activeDownloadCount =
        (rest.length : Int) := by
      rw [idc_count, if_pos hpos, hcount, List.length_cons]; push_cast; omega
    have hflag : (individualDownloadComplete env dh dh.filename e s).1 =
        decide ((rest.length : Int) = 0) := by
      rw [idc_emit, hafter]
    cases rest with
    | nil =>
      refine ⟨?_, ?_⟩
      · simp [runCallbacks, hflag]
      · simpa [runCallbacks] using hafter
    | cons c' rest' =>
      obtain ⟨h1, h2⟩ := ih _ hafter (List.cons_ne_nil _ _)
      refine ⟨?_, ?_⟩
      · show (individualDownloadComplete env dh dh.filename e s).1 ::
            (runCallbacks env (c' :: rest') _).1 = _
        rw [h1, hflag]
        have hz : ¬ ((rest'.length : Int) + 1 = 0) := by omega
        simp [List.replicate_succ, hz]
      · exact h2

/-- C3, as stated, fails when two of the keys are cached in the same file. The keys
"pog" and "./pog" are distinct, neither is in the image table and neither has
a cache file, and the provider is idle; yet `bulkDownload` starts one session
only, because the second key finds the file that the first session has just
opened.  So `N = 2` terminal callbacks never arrive: `activeDownloadCount` is
1, and the first callback delivered already emits `downloadComplete()`. -/
theorem bulkDownload_shared_file_one_session :
    ["pog", "./pog"].Nodup ∧
    (∀ k ∈ ["pog", "./pog"], Table.contains (init [])._imageTable k = false ∧
      QDir_exists demoEnv (init []).disk demoEnv._cacheDir (k ++ demoEnv._extension) = false) ∧
    (bulkDownload demoEnv ["pog", "./pog"] (init [])).2.handlers = [handlerFor demoEnv "pog"] ∧
    (bulkDownload demoEnv ["pog", "./pog"] (init [])).2.activeDownloadCount = 1 ∧
    Table.contains (bulkDownload demoEnv ["pog", "./pog"] (init [])).2._imageTable "./pog"
      = true ∧
    (individualDownloadComplete demoEnv (handlerFor demoEnv "pog")
      (handlerFor demoEnv "pog").filename false
      (bulkDownload demoEnv ["pog", "./pog"] (init [])).2).1 = true :=
  ⟨by decide, by decide, by decide, by decide, by decide, by decide⟩

/-- C3, amended (drain). From an idle provider, after `bulkDownload` of `N ≥ 1` keys
that are cached in `N` pairwise distinct files and are neither in the image
table nor on disk, `N` sessions are running, and in whatever order and with
whatever `hadError` their `N` terminal callbacks are then delivered, and
whatever the files hold by then, the first `N - 1` callbacks do not emit
`downloadComplete()` and the last one does, which leaves `activeDownloadCount`
at 0. -/
theorem bulkDownload_drains_once (env : Env) (s : State) (keys : List String)
    (hidle : Idle s) (hne : keys ≠ []) (hfiles : (keys.map (cacheFileOf env)).Nodup)
    (hmiss : ∀ k ∈ keys, Table.contains s._imageTable k = false ∧
      QDir_exists env s.disk env._cacheDir (k ++ env._extension) = false)
    (d : List (String × Bytes)) (order : List (DownloadHandler × Bool))
    (hperm : (order.map Prod.fst).Perm (bulkDownload env keys s).2.handlers) :
    (bulkDownload env keys s).2.handlers = keys.map (handlerFor env) ∧
    (bulkDownload env keys s).2.activeDownloadCount = (keys.length : Int) ∧
    (runCallbacks env order { (bulkDownload env keys s).2 with disk := d }).1 =
      List.replicate (keys.length - 1) false ++ [true] ∧
    (runCallbacks env order
      { (bulkDownload env keys s).2 with disk := d }).2.activeDownloadCount = 0 := by
  obtain ⟨hc, hcd, hh⟩ := hidle
  have hall := bulkDownloadLoop_all_miss env keys false s hfiles (by
    intro k hk
    obtain ⟨ht, hf⟩ := hmiss k hk
    exact ⟨by rw [hcd]; exact Finset.not_mem_empty k, ht, hf⟩)
  obtain ⟨h1, h2, -⟩ := hall
  have hhandlers : (bulkDownload env keys s).2.handlers = keys.map (handlerFor env) := by
    show (bulkDownloadLoop env keys false s).2.handlers = _
    rw [h2, hh, List.nil_append]
  have hcount : (bulkDownload env keys s).2.activeDownloadCount = (keys.length : Int) := by
    show (bulkDownloadLoop env keys false s).2.activeDownloadCount = _
    rw [h1, hc, zero_add]
  have hlen : order.length = keys.length := by
    have := hperm.length_eq
    rw [hhandlers] at this
    simpa using this
  have hne' : order ≠ [] := by
    intro e
    rw [e] at hlen
    exact hne (List.length_eq_zero.1 hlen.symm)
  have hrun := runCallbacks_flags env order { (bulkDownload env keys s).2 with disk := d }
    (by rw [← hlen] at hcount; exact hcount) hne'
  rw [hlen] at hrun
  exact ⟨hhandlers, hcount, hrun.1, hrun.2⟩

theorem bulkDownload_drains_once_witness :
    Idle (init []) ∧
    (["pog", "kappa"].map (cacheFileOf demoEnv)).Nodup ∧
    (runCallbacks demoEnv [(handlerFor demoEnv "pog", false), (handlerFor demoEnv "kappa", true)]
      { (bulkDownload demoEnv ["pog", "kappa"] (init [])).2 with
        disk := [("/cache/pog.png", [1, 2, 3]), ("/cache/kappa.png", [4])] }).1 = [false, true] ∧
    (bulkDownload demoEnv ["pog", "kappa"] (init [])).2.activeDownloadCount = 2 ∧
    (individualDownloadComplete demoEnv (handlerFor demoEnv "pog")
      (handlerFor demoEnv "pog").filename false
      { (bulkDownload demoEnv ["pog", "kappa"] (init [])).2 with
        disk := [("/cache/pog.png", [1, 2, 3]), ("/cache/kappa.png", [4])] }).2.activeDownloadCount
      = 1 ∧
    (runCallbacks demoEnv [(handlerFor demoEnv "pog", false), (handlerFor demoEnv "kappa", true)]
      { (bulkDownload demoEnv ["pog", "kappa"] (init [])).2 with
        disk := [("/cache/pog.png", [1, 2, 3]), ("/cache/kappa.png", [4])] }).2._imageTable =
      [("pog", some ⟨1, 1, [1, 2, 3]⟩)] ∧
    (runCallbacks demoEnv [(handlerFor demoEnv "pog", false), (handlerFor demoEnv "kappa", true)]
      { (bulkDownload demoEnv ["pog", "kappa"] (init [])).2 with
        disk := [("/cache/pog.png", [1, 2, 3]), ("/cache/kappa.png", [4])] }).2.disk =
      [("/cache/pog.png", [1, 2, 3])] :=
  ⟨⟨rfl, rfl, rfl⟩, by decide,
    (bulkDownload_drains_once demoEnv (init []) ["pog", "kappa"] ⟨rfl, rfl, rfl⟩
      (by decide) (by decide) (by decide)
      [("/cache/pog.png", [1, 2, 3]), ("/cache/kappa.png", [4])]
      [(handlerFor demoEnv "pog", false), (handlerFor demoEnv "kappa", true)]
      (by decide)).2.2.1,
    by decide, by decide, by decide, by decide⟩

/-- C4, as stated, fails. After `makeAvailable("pog")` on an empty disk the cache
file of "pog" exists (the handler has opened it) and "pog" is in
`currentlyDownloading`; in this reachable state `makeAvailable("pog")` returns
true and "pog" is not in the image table when it returns. -/
theorem makeAvailable_cache_file_of_running_download :
    Reachable demoEnv (makeAvailable demoEnv "pog" (init [])).2 ∧
    QDir_exists demoEnv (makeAvailable demoEnv "pog" (init [])).2.disk demoEnv._cacheDir
      ("pog" ++ demoEnv._extension) = true ∧
    (makeAvailable demoEnv "pog" (makeAvailable demoEnv "pog" (init [])).2).1 = true ∧
    Table.contains
      (makeAvailable demoEnv "pog" (makeAvailable demoEnv "pog" (init [])).2).2._imageTable
      "pog" = false :=
  ⟨Reachable.next (Reachable.start []) (Step.call _ _), by decide, by decide, by decide⟩

/-- C4, amended (cache-hit short-circuit). When the cache file of `k` exists at the
time of the call and `k` is not in `currentlyDownloading`, `makeAvailable(k)`
returns false, the image table contains `k` when the call returns, no GET
request is issued, no handler is created, and `activeDownloadCount` and
`currentlyDownloading` are unchanged. -/
theorem makeAvailable_cache_hit (env : Env) (k : String) (s : State)
    (hf : QDir_exists env s.disk env._cacheDir (k ++ env._extension) = true)
    (hk : k ∉ s.currentlyDownloading) :
    (makeAvailable env k s).1 = false ∧
    Table.contains (makeAvailable env k s).2._imageTable k = true ∧
    (makeAvailable env k s).2.requests = s.requests ∧
    (makeAvailable env k s).2.handlers = s.handlers ∧
    (makeAvailable env k s).2.activeDownloadCount = s.activeDownloadCount ∧
    (makeAvailable env k s).2.currentlyDownloading = s.currentlyDownloading := by
  by_cases ht : Table.contains s._imageTable k = true
  · rw [makeAvailable_loaded env k s hk ht]
    exact ⟨rfl, ht, rfl, rfl, rfl, rfl⟩
  · have ht' : Table.contains s._imageTable k = false := by simpa using ht
    rw [makeAvailable_cached env k s hk ht' hf]
    exact ⟨rfl, Table.contains_insert_self _ _ _, rfl, rfl, rfl, rfl⟩

theorem makeAvailable_cache_hit_witness :
    QDir_exists demoEnv (init [("/cache/pog.png", [7])]).disk demoEnv._cacheDir
      ("pog" ++ demoEnv._extension) = true ∧
    "pog" ∉ (init [("/cache/pog.png", [7])]).currentlyDownloading ∧
    (makeAvailable demoEnv "pog" (init [("/cache/pog.png", [7])])).1 = false ∧
    Table.contains (makeAvailable demoEnv "pog" (init [("/cache/pog.png", [7])])).2._imageTable
      "pog" = true :=
  ⟨by decide, by decide,
    (makeAvailable_cache_hit demoEnv "pog" (init [("/cache/pog.png", [7])])
      (by decide) (by decide)).1,
    (makeAvailable_cache_hit demoEnv "pog" (init [("/cache/pog.png", [7])])
      (by decide) (by decide)).2.1⟩

/-- C5 (partial-failure cleanup). In a reachable state, for every session that is
still running (its handler `dh` was created by `makeAvailable` for the key
`dh.key`), after the terminal callback with `hadError = true` the cache file of
the key does not exist, the key is absent from the image table and the key is
no longer in `currentlyDownloading`. -/
theorem failed_download_cleanup (env : Env) (s : State) (dh : DownloadHandler)
    (h : Reachable env s) (hlive : dh ∈ s.handlers) :
    QFile_exists env (individualDownloadComplete env dh dh.filename true s).2.disk
      (cacheFile env dh.key) = false ∧
    Table.contains (individualDownloadComplete env dh dh.filename true s).2._imageTable
      dh.key = false ∧
    dh.key ∉ (individualDownloadComplete env dh dh.filename true s).2.currentlyDownloading := by
  have hi := inv_of_reachable env h
  have hkey : dh.key ∈ s.currentlyDownloading :=
    (hi.live dh.key).2 (List.mem_map_of_mem _ hlive)
  refine ⟨?_, ?_, ?_⟩
  · rw [idc_disk_error, hi.file dh hlive]
    exact Table.contains_remove_self _ _
  · rw [idc_table_error]
    exact hi.fresh _ hkey
  · rw [idc_currentlyDownloading]
    exact Finset.not_mem_erase _ _

theorem failed_download_cleanup_witness :
    Reachable demoEnv (makeAvailable demoEnv "kappa" (init [])).2 ∧
    handlerFor demoEnv "kappa" ∈ (makeAvailable demoEnv "kappa" (init [])).2.handlers ∧
    QFile_exists demoEnv (makeAvailable demoEnv "kappa" (init [])).2.disk
      (cacheFile demoEnv "kappa") = true ∧
    QFile_exists demoEnv (individualDownloadComplete demoEnv (handlerFor demoEnv "kappa")
      (handlerFor demoEnv "kappa").filename true
      (makeAvailable demoEnv "kappa" (init [])).2).2.disk
      (cacheFile demoEnv (handlerFor demoEnv "kappa").key) = false :=
  ⟨Reachable.next (Reachable.start []) (Step.call _ _), by decide, by decide,
    (failed_download_cleanup demoEnv (makeAvailable demoEnv "kappa" (init [])).2
      (handlerFor demoEnv "kappa")
      (Reachable.next (Reachable.start []) (Step.call _ _)) (by decide)).1⟩

/-- C6 (idempotent re-request). In every reachable state whose image table contains
`k`, calling `makeAvailable(k)` any number `n` of times in a row returns false
every time and leaves the whole state unchanged: no GET request, and the
same `activeDownloadCount`, `currentlyDownloading` and image table. -/
theorem makeAvailable_loaded_idempotent (env : Env) (k : String) (s : State)
    (h : Reachable env s) (ht : Table.contains s._imageTable k = true) (n : Nat) :
    makeAvailableTimes env k n s = (List.replicate n false, s) := by
  have hi := inv_of_reachable env h
  have hk : k ∉ s.currentlyDownloading := by
    intro hin
    have := hi.fresh k hin
    rw [ht] at this
    exact Bool.noConfusion this
  induction n with
  | zero => rfl
  | succ n ih =>
    unfold makeAvailableTimes
    rw [makeAvailable_loaded env k s hk ht]
    simp [ih, List.replicate_succ]

theorem makeAvailable_loaded_idempotent_witness :
    Reachable demoEnv (makeAvailable demoEnv "pog" (init [("/cache/pog.png", [7])])).2 ∧
    Table.contains (makeAvailable demoEnv "pog" (init [("/cache/pog.png", [7])])).2._imageTable
      "pog" = true ∧
    makeAvailableTimes demoEnv "pog" 3
        (makeAvailable demoEnv "pog" (init [("/cache/pog.png", [7])])).2 =
      ([false, false, false], (makeAvailable demoEnv "pog" (init [("/cache/pog.png", [7])])).2) :=
  ⟨Reachable.next (Reachable.start _) (Step.call _ _), by decide,
    makeAvailable_loaded_idempotent demoEnv "pog" _
      (Reachable.next (Reachable.start _) (Step.call _ _)) (by decide) 3⟩

theorem QImage_load_failed (env : Env) (disk : List (String × Bytes)) (filename : String)
    (h : (QImage_load env disk filename).1 = false) :
    (QImage_load env disk filename).2 = QImage.null := by
  unfold QImage_load at h ⊢
  cases hl : Table.lookup disk (env.fileOf filename) with
  | none => rfl
  | some bytes =>
    rw [hl] at h
    cases hd : env.decode bytes with
    | none => simp [hd]
    | some img => simp [hd] at h

/-- C7, as stated, fails on both paths. A download of "pog" that ends without error
on a file the codec rejects leaves "pog" in the image table, and so does
`makeAvailable("pog")` on a cache file the codec rejects. -/
theorem decode_failure_key_present :
    (QImage_load demoEnv (makeAvailable demoEnv "pog" (init [])).2.disk
      (cacheFile demoEnv "pog")).1 = false ∧
    Table.contains (individualDownloadComplete demoEnv (handlerFor demoEnv "pog")
      (cacheFile demoEnv "pog") false
      (makeAvailable demoEnv "pog" (init [])).2).2._imageTable "pog" = true ∧
    (QImage_load demoEnv (init [("/cache/pog.png", [])]).disk (cacheFile demoEnv "pog")).1 = false ∧
    Table.contains (makeAvailable demoEnv "pog" (init [("/cache/pog.png", [])])).2._imageTable
      "pog" = true :=
  ⟨by decide, by decide, by decide, by decide⟩

/-- C7, amended. A decode failure leaves the key in the image table with a null
image: when a download of `dh.key` terminates without error and `QImage::load`
fails on the downloaded file, the table maps the key to a null image after the
terminal callback; likewise when `makeAvailable(k)` reaches the cache file of
`k` (`k` neither downloading nor in the table) and `QImage::load` fails on it,
the table maps `k` to a null image afterwards. -/
theorem decode_failure_stores_null_image (env : Env) (s : State) (dh : DownloadHandler)
    (filename k : String) :
    ((QImage_load env s.disk filename).1 = false →
      Table.lookup (individualDownloadComplete env dh filename false s).2._imageTable dh.key =
        some (some QImage.null)) ∧
    (k ∉ s.currentlyDownloading → Table.contains s._imageTable k = false →
      QDir_exists env s.disk env._cacheDir (k ++ env._extension) = true →
      (QImage_load env s.disk (cacheFile env k)).1 = false →
      (makeAvailable env k s).1 = false ∧
      Table.lookup (makeAvailable env k s).2._imageTable k = some (some QImage.null)) := by
  constructor
  · intro hfail
    rw [idc_table_success, Table.lookup_insert_self, QImage_load_failed env _ _ hfail]
  · intro hk ht hf hfail
    rw [makeAvailable_cached env k s hk ht hf]
    refine ⟨rfl, ?_⟩
    show Table.lookup (Table.insert s._imageTable k _) k = _
    rw [Table.lookup_insert_self, QImage_load_failed env _ _ hfail]

theorem decode_failure_stores_null_image_witness :
    (QImage_load demoEnv (init [("/cache/pog.png", [])]).disk "/cache/pog.png").1 = false ∧
    Table.lookup (individualDownloadComplete demoEnv (handlerFor demoEnv "pog")
      "/cache/pog.png" false (init [("/cache/pog.png", [])])).2._imageTable
      (handlerFor demoEnv "pog").key = some (some QImage.null) ∧
    Table.lookup (makeAvailable demoEnv "pog" (init [("/cache/pog.png", [])])).2._imageTable
      "pog" = some (some QImage.null) :=
  ⟨by decide,
    (decode_failure_stores_null_image demoEnv (init [("/cache/pog.png", [])])
      (handlerFor demoEnv "pog") "/cache/pog.png" "pog").1 (by decide),
    ((decode_failure_stores_null_image demoEnv (init [("/cache/pog.png", [])])
      (handlerFor demoEnv "pog") "/cache/pog.png" "pog").2
      (by decide) (by decide) (by decide) (by decide)).2⟩

/-- C8 (`bulkDownload` is a fold of `makeAvailable`). The final state of
`bulkDownload(keys)` is the state obtained by calling `makeAvailable` on every
key of the list in sequence, and it returns true if and only if at least one of
those calls returned true; on the empty list it returns false and changes nothing. -/
theorem bulkDownload_eq_fold (env : Env) (keys : List String) (s : State) :
    (bulkDownload env keys s).2 = keys.foldl (fun st k => (makeAvailable env k st).2) s ∧
    ((bulkDownload env keys s).1 = true ↔ true ∈ callResults env keys s) ∧
    (callResults env keys s).length = keys.length ∧
    bulkDownload env [] s = (false, s) := by
  refine ⟨?_, ?_, ?_, rfl⟩
  · unfold bulkDownload
    rw [bulkDownloadLoop_eq]
  · unfold bulkDownload
    rw [bulkDownloadLoop_eq]
    simp
  · induction keys generalizing s with
    | nil => rfl
    | cons k rest ih => simp [callResults, ih]

/-- C9 (miss case). When `k` is not in `currentlyDownloading`, not in the image table
and has no cache file, `makeAvailable(k)` returns true, issues exactly one GET
request (for the URL of `k`), creates the handler of `k`, inserts `k` into
`currentlyDownloading`, increases `activeDownloadCount` by exactly 1 and leaves
the image table unchanged. -/
theorem makeAvailable_miss_starts_download (env : Env) (k : String) (s : State)
    (hk : k ∉ s.currentlyDownloading) (ht : Table.contains s._imageTable k = false)
    (hf : QDir_exists env s.disk env._cacheDir (k ++ env._extension) = false) :
    (makeAvailable env k s).1 = true ∧
    (makeAvailable env k s).2.requests = s.requests ++ [env.arg env._urlFormat k] ∧
    (makeAvailable env k s).2.handlers = s.handlers ++ [handlerFor env k] ∧
    (makeAvailable env k s).2.currentlyDownloading = insert k s.currentlyDownloading ∧
    (makeAvailable env k s).2.activeDownloadCount = s.activeDownloadCount + 1 ∧
    (makeAvailable env k s).2._imageTable = s._imageTable := by
  rw [makeAvailable_miss env k s hk ht hf]
  exact ⟨rfl, rfl, rfl, rfl, rfl, rfl⟩

theorem makeAvailable_miss_starts_download_witness :
    "kappa" ∉ (init []).currentlyDownloading ∧
    (makeAvailable demoEnv "kappa" (init [])).1 = true ∧
    (makeAvailable demoEnv "kappa" (init [])).2.requests = ["https://cdn.example/kappa"] ∧
    (makeAvailable demoEnv "kappa" (init [])).2.activeDownloadCount = 1 :=
  ⟨by decide,
    (makeAvailable_miss_starts_download demoEnv "kappa" (init [])
      (by decide) (by decide) (by decide)).1,
    by decide, by decide⟩

/-- C10, as stated, fails when the counter is already 0: the callback then leaves
the counter unchanged, so there is no transition from 1 to 0, and yet it emits
`downloadComplete()`. -/
theorem downloadComplete_emitted_at_zero :
    (init []).activeDownloadCount = 0 ∧
    (individualDownloadComplete demoEnv (handlerFor demoEnv "pog") (cacheFile demoEnv "pog")
      true (init [])).2.activeDownloadCount = (init []).activeDownloadCount ∧
    (individualDownloadComplete demoEnv (handlerFor demoEnv "pog") (cacheFile demoEnv "pog")
      true (init [])).1 = true :=
  ⟨by decide, by decide, by decide⟩

/-- C10, amended. A terminal callback processed while `activeDownloadCount` is not 0
emits `downloadComplete()` if and only if the counter was exactly 1 before the
callback and is 0 after it, so a callback that leaves other downloads
outstanding emits nothing; a callback processed while the counter is 0 leaves
it at 0 and does emit.  In a reachable state the counter is not 0 when the
callback of a running session arrives. -/
theorem downloadComplete_emitted_iff (env : Env) (dh : DownloadHandler) (filename : String)
    (hadError : Bool) (s : State) :
    (s.activeDownloadCount ≠ 0 →
      ((individualDownloadComplete env dh filename hadError s).1 = true ↔
        s.activeDownloadCount = 1 ∧
        (individualDownloadComplete env dh filename hadError s).2.activeDownloadCount = 0)) ∧
    (s.activeDownloadCount = 0 →
      (individualDownloadComplete env dh filename hadError s).1 = true ∧
      (individualDownloadComplete env dh filename hadError s).2.activeDownloadCount = 0) ∧
    (Reachable env s → dh ∈ s.handlers → s.activeDownloadCount ≠ 0) := by
  refine ⟨?_, ?_, ?_⟩
  · intro hne
    rw [idc_emit, idc_count]
    by_cases hpos : s.activeDownloadCount > 0
    · rw [if_pos hpos]
      simp only [decide_eq_true_eq]
      constructor
      · intro h; exact ⟨by omega, h⟩
      · intro h; exact h.2
    · rw [if_neg hpos]
      simp only [decide_eq_true_eq]
      constructor
      · intro h; exact absurd h hne
      · intro h; exact absurd h.2 hne
  · intro hz
    rw [idc_emit, idc_count, hz]
    simp
  · intro hr hlive
    have hi := inv_of_reachable env hr
    have hkey : dh.key ∈ s.currentlyDownloading :=
      (hi.live dh.key).2 (List.mem_map_of_mem _ hlive)
    have hpos : 0 < s.currentlyDownloading.card := Finset.card_pos.2 ⟨_, hkey⟩
    rw [hi.count]
    exact_mod_cast hpos.ne'

theorem downloadComplete_emitted_iff_witness :
    (makeAvailable demoEnv "pog" (init [])).2.activeDownloadCount ≠ 0 ∧
    ((individualDownloadComplete demoEnv (handlerFor demoEnv "pog") (cacheFile demoEnv "pog")
        false (makeAvailable demoEnv "pog" (init [])).2).1 = true ↔
      (makeAvailable demoEnv "pog" (init [])).2.activeDownloadCount = 1 ∧
      (individualDownloadComplete demoEnv (handlerFor demoEnv "pog") (cacheFile demoEnv "pog")
        false (makeAvailable demoEnv "pog" (init [])).2).2.activeDownloadCount = 0) ∧
    (individualDownloadComplete demoEnv (handlerFor demoEnv "pog") (cacheFile demoEnv "pog")
        false (init [])).1 = true ∧
    (bulkDownload demoEnv ["pog", "kappa"] (init [])).2.activeDownloadCount ≠ 0 :=
  ⟨by decide,
    (downloadComplete_emitted_iff demoEnv (handlerFor demoEnv "pog") (cacheFile demoEnv "pog")
      false (makeAvailable demoEnv "pog" (init [])).2).1 (by decide),
    ((downloadComplete_emitted_iff demoEnv (handlerFor demoEnv "pog") (cacheFile demoEnv "pog")
      false (init [])).2.1 (by decide)).1,
    (downloadComplete_emitted_iff demoEnv (handlerFor demoEnv "pog") (cacheFile demoEnv "pog")
      false (bulkDownload demoEnv ["pog", "kappa"] (init [])).2).2.2
      (Reachable.next (Reachable.start []) (Step.bulk _ _)) (by decide)⟩

/-- C12 (rendering facade). When `id` is a key of the table with a non-null entry,
`requestImage(id, size, _)` returns the image stored under `id` and, when a
`size` out-parameter is supplied, sets it to the dimensions of that image;
otherwise (unknown key, or null entry) it returns the empty image and leaves
`size` untouched.  In both cases the table is the same afterwards. -/
theorem requestImage_lookup (p : CachedImageProvider) (id : String) (size : Option QSize)
    (requestedSize : QSize) :
    (∀ img, Table.lookup p.imageTable id = some (some img) →
      (p.requestImage id size requestedSize).1 = img ∧
      (p.requestImage id size requestedSize).2.1 = size.map (fun _ => img.size)) ∧
    ((Table.lookup p.imageTable id = none ∨ Table.lookup p.imageTable id = some none) →
      (p.requestImage id size requestedSize).1 = QImage.null ∧
      (p.requestImage id size requestedSize).2.1 = size) ∧
    (p.requestImage id size requestedSize).2.2 = p := by
  refine ⟨?_, ?_, ?_⟩
  · intro img h
    unfold CachedImageProvider.requestImage
    rw [h]
    cases size <;> exact ⟨rfl, rfl⟩
  · intro h
    unfold CachedImageProvider.requestImage
    rcases h with h | h <;> rw [h] <;> exact ⟨rfl, rfl⟩
  · unfold CachedImageProvider.requestImage
    rcases h : Table.lookup p.imageTable id with _ | (_ | img) <;> rfl

theorem requestImage_lookup_witness :
    Table.lookup (CachedImageProvider.mk [("pog", some ⟨2, 3, [1, 2, 3, 4, 5, 6]⟩)]).imageTable
      "pog" = some (some ⟨2, 3, [1, 2, 3, 4, 5, 6]⟩) ∧
    ((CachedImageProvider.mk [("pog", some ⟨2, 3, [1, 2, 3, 4, 5, 6]⟩)]).requestImage "pog"
      (some ⟨0, 0⟩) ⟨16, 16⟩).1 = ⟨2, 3, [1, 2, 3, 4, 5, 6]⟩ ∧
    ((CachedImageProvider.mk [("pog", some ⟨2, 3, [1, 2, 3, 4, 5, 6]⟩)]).requestImage "pog"
      (some ⟨0, 0⟩) ⟨16, 16⟩).2.1 = some ⟨2, 3⟩ ∧
    ((CachedImageProvider.mk [("pog", some ⟨2, 3, [1, 2, 3, 4, 5, 6]⟩)]).requestImage "kappa"
      (some ⟨7, 7⟩) ⟨16, 16⟩).1 = QImage.null ∧
    ((CachedImageProvider.mk [("pog", some ⟨2, 3, [1, 2, 3, 4, 5, 6]⟩)]).requestImage "kappa"
      (some ⟨7, 7⟩) ⟨16, 16⟩).2.1 = some ⟨7, 7⟩ :=
  ⟨by decide,
    ((requestImage_lookup (CachedImageProvider.mk [("pog", some ⟨2, 3, [1, 2, 3, 4, 5, 6]⟩)])
      "pog" (some ⟨0, 0⟩) ⟨16, 16⟩).1 ⟨2, 3, [1, 2, 3, 4, 5, 6]⟩ (by decide)).1,
    ((requestImage_lookup (CachedImageProvider.mk [("pog", some ⟨2, 3, [1, 2, 3, 4, 5, 6]⟩)])
      "pog" (some ⟨0, 0⟩) ⟨16, 16⟩).1 ⟨2, 3, [1, 2, 3, 4, 5, 6]⟩ (by decide)).2,
    ((requestImage_lookup (CachedImageProvider.mk [("pog", some ⟨2, 3, [1, 2, 3, 4, 5, 6]⟩)])
      "kappa" (some ⟨7, 7⟩) ⟨16, 16⟩).2.1 (Or.inl (by decide))).1,
    ((requestImage_lookup (CachedImageProvider.mk [("pog", some ⟨2, 3, [1, 2, 3, 4, 5, 6]⟩)])
      "kappa" (some ⟨7, 7⟩) ⟨16, 16⟩).2.1 (Or.inl (by decide))).2⟩

/-- C13 (`downloadsInProgress`). The query returns true exactly when
`activeDownloadCount > 0` and leaves the state unchanged; in every reachable
state it returns true if and only if `currentlyDownloading` is not empty. -/
theorem downloadsInProgress_iff (env : Env) (s : State) :
    ((downloadsInProgress s).1 = true ↔ s.activeDownloadCount > 0) ∧
    (downloadsInProgress s).2 = s ∧
    (Reachable env s → ((downloadsInProgress s).1 = true ↔ s.currentlyDownloading.Nonempty)) := by
  refine ⟨by simp [downloadsInProgress], rfl, ?_⟩
  intro h
  have hi := inv_of_reachable env h
  simp only [downloadsInProgress, decide_eq_true_eq, hi.count, gt_iff_lt, Nat.cast_pos,
    Finset.card_pos]

theorem downloadsInProgress_iff_witness :
    Reachable demoEnv (makeAvailable demoEnv "pog" (init [])).2 ∧
    (makeAvailable demoEnv "pog" (init [])).2.currentlyDownloading.Nonempty ∧
    (downloadsInProgress (makeAvailable demoEnv "pog" (init [])).2).1 = true ∧
    (downloadsInProgress (init [])).1 = false :=
  ⟨Reachable.next (Reachable.start []) (Step.call _ _),
    ((downloadsInProgress_iff demoEnv (makeAvailable demoEnv "pog" (init [])).2).2.2
      (Reachable.next (Reachable.start []) (Step.call _ _))).1 (by decide),
    by decide, by decide⟩

/-- C16 (floor at zero). The terminal callback decrements `activeDownloadCount` only
when it is positive; hence for every state whose counter is not negative the
counter afterwards is `max (old - 1) 0`, and a callback processed while the
counter is 0 leaves it at 0. -/
theorem activeDownloadCount_floor (env : Env) (dh : DownloadHandler) (filename : String)
    (hadError : Bool) (s : State) :
    (individualDownloadComplete env dh filename hadError s).2.activeDownloadCount =
      (if s.activeDownloadCount > 0 then s.activeDownloadCount - 1 else s.activeDownloadCount) ∧
    (0 ≤ s.activeDownloadCount →
      (individualDownloadComplete env dh filename hadError s).2.activeDownloadCount =
        max (s.activeDownloadCount - 1) 0) ∧
    (s.activeDownloadCount = 0 →
      (individualDownloadComplete env dh filename hadError s).2.activeDownloadCount = 0) := by
  refine ⟨idc_count env dh filename hadError s, ?_, ?_⟩
  · intro h0
    rw [idc_count]
    by_cases hpos : s.activeDownloadCount > 0
    · rw [if_pos hpos, max_eq_left (by omega)]
    · rw [if_neg hpos, max_eq_right (by omega)]
      omega
  · intro hz
    rw [idc_count, hz]
    rfl

theorem activeDownloadCount_floor_witness :
    (0 : Int) ≤ (init []).activeDownloadCount ∧
    (individualDownloadComplete demoEnv (handlerFor demoEnv "pog") (cacheFile demoEnv "pog")
      false (init [])).2.activeDownloadCount = max ((init []).activeDownloadCount - 1) 0 ∧
    (individualDownloadComplete demoEnv (handlerFor demoEnv "pog") (cacheFile demoEnv "pog")
      false (init [])).2.activeDownloadCount = 0 ∧
    (individualDownloadComplete demoEnv (handlerFor demoEnv "kappa") (cacheFile demoEnv "kappa")
      true (bulkDownload demoEnv ["pog", "kappa"] (init [])).2).2.activeDownloadCount = 1 :=
  ⟨by decide,
    (activeDownloadCount_floor demoEnv (handlerFor demoEnv "pog") (cacheFile demoEnv "pog")
      false (init [])).2.1 (by decide),
    (activeDownloadCount_floor demoEnv (handlerFor demoEnv "pog") (cacheFile demoEnv "pog")
      false (init [])).2.2 (by decide),
    by decide⟩

/-- C17 (disjointness). In every reachable state no key is both in
`currentlyDownloading` and in the image table. -/
theorem currentlyDownloading_disjoint_imageTable (env : Env) (s : State)
    (h : Reachable env s) (k : String) :
    ¬ (k ∈ s.currentlyDownloading ∧ Table.contains s._imageTable k = true) := by
  rintro ⟨hk, ht⟩
  have := (inv_of_reachable env h).fresh k hk
  rw [ht] at this
  exact Bool.noConfusion this

theorem currentlyDownloading_disjoint_imageTable_witness :
    Reachable demoEnv (individualDownloadComplete demoEnv (handlerFor demoEnv "pog")
      (handlerFor demoEnv "pog").filename false
      (bulkDownload demoEnv ["pog", "kappa"] (init [])).2).2 ∧
    Table.contains (individualDownloadComplete demoEnv (handlerFor demoEnv "pog")
      (handlerFor demoEnv "pog").filename false
      (bulkDownload demoEnv ["pog", "kappa"] (init [])).2).2._imageTable "pog" = true ∧
    ¬ ("pog" ∈ (individualDownloadComplete demoEnv (handlerFor demoEnv "pog")
        (handlerFor demoEnv "pog").filename false
        (bulkDownload demoEnv ["pog", "kappa"] (init [])).2).2.currentlyDownloading ∧
      Table.contains (individualDownloadComplete demoEnv (handlerFor demoEnv "pog")
        (handlerFor demoEnv "pog").filename false
        (bulkDownload demoEnv ["pog", "kappa"] (init [])).2).2._imageTable "pog" = true) :=
  ⟨Reachable.next (Reachable.next (Reachable.start []) (Step.bulk _ _))
      (Step.callback _ (handlerFor demoEnv "pog") false (by decide)),
    by decide,
    currentlyDownloading_disjoint_imageTable demoEnv _
      (Reachable.next (Reachable.next (Reachable.start []) (Step.bulk _ _))
        (Step.callback _ (handlerFor demoEnv "pog") false (by decide))) "pog"⟩

/-- C18 (the return value tells where the key is). In every reachable state, after
`makeAvailable(k)` returns, `k` is in `currentlyDownloading` if and only if the
call returned true, and `k` is in the image table if and only if the call
returned false. -/
theorem makeAvailable_result_locates_key (env : Env) (k : String) (s : State)
    (h : Reachable env s) :
    (k ∈ (makeAvailable env k s).2.currentlyDownloading ↔ (makeAvailable env k s).1 = true) ∧
    (Table.contains (makeAvailable env k s).2._imageTable k = true ↔
      (makeAvailable env k s).1 = false) := by
  have hi := inv_of_reachable env h
  by_cases hk : k ∈ s.currentlyDownloading
  · rw [makeAvailable_inflight env k s hk]
    have := hi.fresh k hk
    simp [hk, this]
  by_cases ht : Table.contains s._imageTable k = true
  · rw [makeAvailable_loaded env k s hk ht]
    simp [hk, ht]
  have ht' : Table.contains s._imageTable k = false := by simpa using ht
  by_cases hf : QDir_exists env s.disk env._cacheDir (k ++ env._extension) = true
  · rw [makeAvailable_cached env k s hk ht' hf]
    have hc : Table.contains (loadImageFile env k (cacheFile env k) s)._imageTable k = true :=
      Table.contains_insert_self _ _ _
    have hd : k ∉ (loadImageFile env k (cacheFile env k) s).currentlyDownloading := hk
    simp [hc, hd]
  have hf' : QDir_exists env s.disk env._cacheDir (k ++ env._extension) = false := by simpa using hf
  rw [makeAvailable_miss env k s hk ht' hf']
  simp [ht']

theorem makeAvailable_result_locates_key_witness :
    Reachable demoEnv (init [("/cache/pog.png", [])]) ∧
    (makeAvailable demoEnv "pog" (init [("/cache/pog.png", [])])).1 = false ∧
    (Table.contains (makeAvailable demoEnv "pog" (init [("/cache/pog.png", [])])).2._imageTable
        "pog" = true ↔
      (makeAvailable demoEnv "pog" (init [("/cache/pog.png", [])])).1 = false) ∧
    ("kappa" ∈ (makeAvailable demoEnv "kappa" (init [])).2.currentlyDownloading ↔
      (makeAvailable demoEnv "kappa" (init [])).1 = true) :=
  ⟨Reachable.start _, by decide,
    (makeAvailable_result_locates_key demoEnv "pog" (init [("/cache/pog.png", [])])
      (Reachable.start _)).2,
    (makeAvailable_result_locates_key demoEnv "kappa" (init []) (Reachable.start _)).1⟩

/-! ## The download handler -/

theorem lookup_QFile_write (env : Env) (disk : List (String × Bytes)) (filename : String)
    (contents buffer : Bytes) (h : Table.lookup disk (env.fileOf filename) = some contents) :
    Table.lookup (QFile_write env disk filename buffer) (env.fileOf filename) =
      some (contents ++ buffer) := by
  unfold QFile_write
  rw [h]
  exact Table.lookup_insert_self _ _ _

theorem run_append (env : Env) (dh : DownloadHandler) (disk : List (String × Bytes))
    (evs more : List ReplyEvent) :
    dh.run env disk (evs ++ more) =
      (((dh.run env disk evs).1.run env (dh.run env disk evs).2.1 more).1,
        ((dh.run env disk evs).1.run env (dh.run env disk evs).2.1 more).2.1,
        (dh.run env disk evs).2.2 ++
          ((dh.run env disk evs).1.run env (dh.run env disk evs).2.1 more).2.2) := by
  induction evs generalizing dh disk with
  | nil => rfl
  | cons ev rest ih =>
    show DownloadHandler.run env dh disk (ev :: (rest ++ more)) = _
    simp only [DownloadHandler.run, List.cons_append]
    rw [ih]

/-- Chunk and error events leave the handler as it is but for its error flag, and
make it emit nothing. -/
theorem run_beforeFinished (env : Env) (dh : DownloadHandler) (disk : List (String × Bytes))
    (evs : List ReplyEvent) (hb : beforeFinished evs = true) :
    (dh.run env disk evs).1 = { dh with hadError := dh.hadError || hasError evs } ∧
    (dh.run env disk evs).2.2 = List.replicate evs.length [] := by
  induction evs generalizing dh disk with
  | nil => simp [DownloadHandler.run, hasError]
  | cons ev rest ih =>
    cases ev with
    | readyRead buffer =>
      obtain ⟨h1, h2⟩ := ih dh (dh.dataAvailable env buffer disk) hb
      refine ⟨?_, ?_⟩
      · simpa [DownloadHandler.run, DownloadHandler.deliver, hasError] using h1
      · simpa [DownloadHandler.run, DownloadHandler.deliver, List.replicate_succ] using h2
    | error code =>
      obtain ⟨h1, h2⟩ := ih (dh.error code) disk hb
      refine ⟨?_, ?_⟩
      · simpa [DownloadHandler.run, DownloadHandler.deliver, DownloadHandler.error,
          hasError] using h1
      · simpa [DownloadHandler.run, DownloadHandler.deliver, List.replicate_succ] using h2
    | finished => simp [beforeFinished] at hb

/-- While the file of the handler is open, the chunks are appended to it. -/
theorem run_open_contents (env : Env) (dh : DownloadHandler) (disk : List (String × Bytes))
    (evs : List ReplyEvent) (hb : beforeFinished evs = true) (hopen : dh.isOpen = true)
    (contents : Bytes) (hc : Table.lookup disk (env.fileOf dh.filename) = some contents) :
    Table.lookup (dh.run env disk evs).2.1 (env.fileOf dh.filename) =
      some (contents ++ chunksOf evs) := by
  induction evs generalizing dh disk contents with
  | nil => simp [DownloadHandler.run, chunksOf, hc]
  | cons ev rest ih =>
    cases ev with
    | readyRead buffer =>
      have hc' := lookup_QFile_write env disk dh.filename contents buffer hc
      have h2 := ih dh (QFile_write env disk dh.filename buffer) hb hopen _ hc'
      simpa [DownloadHandler.run, DownloadHandler.deliver, DownloadHandler.dataAvailable,
        hopen, chunksOf, List.append_assoc] using h2
    | error code =>
      have h2 := ih (dh.error code) disk hb hopen contents hc
      simpa [DownloadHandler.run, DownloadHandler.deliver, DownloadHandler.error,
        chunksOf] using h2
    | finished => simp [beforeFinished] at hb

/-- A handler whose file could not be opened writes nothing. -/
theorem run_closed_disk (env : Env) (dh : DownloadHandler) (disk : List (String × Bytes))
    (evs : List ReplyEvent) (hclosed : dh.isOpen = false) :
    (dh.run env disk evs).2.1 = disk := by
  induction evs generalizing dh disk with
  | nil => rfl
  | cons ev rest ih =>
    cases ev with
    | readyRead buffer =>
      have h2 := ih dh disk hclosed
      simpa [DownloadHandler.run, DownloadHandler.deliver, DownloadHandler.dataAvailable,
        hclosed] using h2
    | error code =>
      have h2 := ih (dh.error code) disk hclosed
      simpa [DownloadHandler.run, DownloadHandler.deliver] using h2
    | finished =>
      have h2 := ih (dh.replyFinished true).1 disk
        (by simp [DownloadHandler.replyFinished])
      simpa [DownloadHandler.run, DownloadHandler.deliver] using h2

/-- C14, as stated, fails when the file cannot be opened. For the key "sub/pog" the
directory of the target file does not exist, so `_file.open` fails in the
constructor; the chunks `[1, 2]` and `[3]` are then delivered and the finished
event makes the handler emit its terminal signal without an error, but the
target file does not exist, where the claim says that it holds `[1, 2, 3]`. -/
theorem file_missing_when_open_fails :
    (makeAvailable demoEnv "sub/pog" (init [])).2.handlers =
      [(DownloadHandler.construct demoEnv "/cache/sub/pog.png" "sub/pog" []).1] ∧
    beforeFinished [ReplyEvent.readyRead [1, 2], ReplyEvent.readyRead [3]] = true ∧
    chunksOf [ReplyEvent.readyRead [1, 2], ReplyEvent.readyRead [3]] = [1, 2, 3] ∧
    ((DownloadHandler.construct demoEnv "/cache/sub/pog.png" "sub/pog" []).1.run demoEnv
      (DownloadHandler.construct demoEnv "/cache/sub/pog.png" "sub/pog" []).2
      ([ReplyEvent.readyRead [1, 2], ReplyEvent.readyRead [3]] ++ [ReplyEvent.finished])).2.2 =
      [[], [], [("/cache/sub/pog.png", false)]] ∧
    QFile_exists demoEnv
      ((DownloadHandler.construct demoEnv "/cache/sub/pog.png" "sub/pog" []).1.run demoEnv
        (DownloadHandler.construct demoEnv "/cache/sub/pog.png" "sub/pog" []).2
        ([ReplyEvent.readyRead [1, 2], ReplyEvent.readyRead [3]] ++ [ReplyEvent.finished])).2.1
      "/cache/sub/pog.png" = false :=
  ⟨by decide, by decide, by decide, by decide, by decide⟩

/-- C14, amended (strict append in arrival order). When `_file.open` succeeds in the
constructor, the target file is empty after the construction, whatever it
held before, and for every sequence of chunk and transport-error events
delivered to the handler afterwards it holds the concatenation of the chunks
in arrival order; these are still its contents when the finished event makes
the handler emit its terminal signal.  When `_file.open` fails, no event
changes any file. -/
theorem file_is_concatenation_of_chunks (env : Env) (filename key : String)
    (disk : List (String × Bytes)) (evs : List ReplyEvent) (hb : beforeFinished evs = true) :
    (env.canOpen filename = true →
      Table.lookup (DownloadHandler.construct env filename key disk).2 (env.fileOf filename) =
        some [] ∧
      Table.lookup (((DownloadHandler.construct env filename key disk).1.run env
        (DownloadHandler.construct env filename key disk).2 evs).2.1) (env.fileOf filename) =
          some (chunksOf evs) ∧
      Table.lookup (((DownloadHandler.construct env filename key disk).1.run env
        (DownloadHandler.construct env filename key disk).2
        (evs ++ [ReplyEvent.finished])).2.1) (env.fileOf filename) = some (chunksOf evs)) ∧
    (env.canOpen filename = false →
      ((DownloadHandler.construct env filename key disk).1.run env
        (DownloadHandler.construct env filename key disk).2
        (evs ++ [ReplyEvent.finished])).2.1 = disk) := by
  constructor
  · intro hopen
    have h0 : Table.lookup (DownloadHandler.construct env filename key disk).2
        (env.fileOf filename) = some [] := by
      simp [DownloadHandler.construct, QFile_open, hopen, Table.lookup_insert_self]
    have hflag : (DownloadHandler.construct env filename key disk).1.isOpen = true := by
      simp [DownloadHandler.construct, QFile_open_fst, hopen]
    have hrun := run_open_contents env (DownloadHandler.construct env filename key disk).1
      (DownloadHandler.construct env filename key disk).2 evs hb hflag [] h0
    have hrun' : Table.lookup (((DownloadHandler.construct env filename key disk).1.run env
        (DownloadHandler.construct env filename key disk).2 evs).2.1) (env.fileOf filename) =
          some (chunksOf evs) := by
      simpa using hrun
    refine ⟨h0, hrun', ?_⟩
    rw [run_append]
    simpa [DownloadHandler.run, DownloadHandler.deliver] using hrun'
  · intro hclosed
    have hflag : (DownloadHandler.construct env filename key disk).1.isOpen = false := by
      simp [DownloadHandler.construct, QFile_open_fst, hclosed]
    have hdisk : (DownloadHandler.construct env filename key disk).2 = disk := by
      simp [DownloadHandler.construct, QFile_open, hclosed]
    rw [run_closed_disk env _ _ _ hflag]
    exact hdisk

theorem file_is_concatenation_of_chunks_witness :
    demoEnv.canOpen "/cache/pog.png" = true ∧
    beforeFinished [ReplyEvent.readyRead [1, 2], ReplyEvent.error 3, ReplyEvent.readyRead [],
      ReplyEvent.readyRead [4]] = true ∧
    Table.lookup (((DownloadHandler.construct demoEnv "/cache/pog.png" "pog"
        [("/cache/pog.png", [9, 9, 9])]).1.run demoEnv
      (DownloadHandler.construct demoEnv "/cache/pog.png" "pog" [("/cache/pog.png", [9, 9, 9])]).2
      ([ReplyEvent.readyRead [1, 2], ReplyEvent.error 3, ReplyEvent.readyRead [],
        ReplyEvent.readyRead [4]] ++ [ReplyEvent.finished])).2.1)
      (demoEnv.fileOf "/cache/pog.png") = some [1, 2, 4] :=
  ⟨by decide, by decide,
    ((file_is_concatenation_of_chunks demoEnv "/cache/pog.png" "pog"
      [("/cache/pog.png", [9, 9, 9])]
      [ReplyEvent.readyRead [1, 2], ReplyEvent.error 3, ReplyEvent.readyRead [],
        ReplyEvent.readyRead [4]] (by decide)).1 (by decide)).2.2⟩

/-- C15 (terminal outcome of a session). For every sequence of chunk and
transport-error events followed by one finished event, the handler emits
nothing at the chunk and error events and emits `downloadComplete(filename,
hadError)` exactly once, at the finished event, with `hadError` true if and only
if a transport-error event occurred; and no event resets an error flag that is set. -/
theorem downloadComplete_signal_once (env : Env) (filename key : String)
    (disk : List (String × Bytes)) (evs : List ReplyEvent) (hb : beforeFinished evs = true) :
    ((DownloadHandler.construct env filename key disk).1.run env
      (DownloadHandler.construct env filename key disk).2 (evs ++ [ReplyEvent.finished])).2.2 =
        List.replicate evs.length [] ++ [[(filename, hasError evs)]] ∧
    (∀ (dh : DownloadHandler) (d : List (String × Bytes)) (ev : ReplyEvent),
      dh.hadError = true → (dh.deliver env d ev).1.hadError = true) := by
  have hrun := run_beforeFinished env (DownloadHandler.construct env filename key disk).1
    (DownloadHandler.construct env filename key disk).2 evs hb
  constructor
  · rw [run_append, hrun.2, hrun.1]
    simp [DownloadHandler.run, DownloadHandler.deliver, DownloadHandler.replyFinished,
      DownloadHandler.construct]
  · intro dh d ev hflag
    cases ev <;>
      simp [DownloadHandler.deliver, DownloadHandler.error, DownloadHandler.replyFinished, hflag]

theorem downloadComplete_signal_once_witness :
    beforeFinished [ReplyEvent.readyRead [1, 2], ReplyEvent.error 3, ReplyEvent.readyRead [4]]
      = true ∧
    ((DownloadHandler.construct demoEnv "/cache/pog.png" "pog" []).1.run demoEnv
      (DownloadHandler.construct demoEnv "/cache/pog.png" "pog" []).2
      ([ReplyEvent.readyRead [1, 2], ReplyEvent.error 3, ReplyEvent.readyRead [4]] ++
        [ReplyEvent.finished])).2.2 = [[], [], [], [("/cache/pog.png", true)]] ∧
    ((DownloadHandler.construct demoEnv "/cache/pog.png" "pog" []).1.run demoEnv
      (DownloadHandler.construct demoEnv "/cache/pog.png" "pog" []).2
      [ReplyEvent.readyRead [1, 2], ReplyEvent.finished]).2.2 = [[], [("/cache/pog.png", false)]] :=
  ⟨by decide,
    (downloadComplete_signal_once demoEnv "/cache/pog.png" "pog" []
      [ReplyEvent.readyRead [1, 2], ReplyEvent.error 3, ReplyEvent.readyRead [4]]
      (by decide)).1,
    by decide⟩

/-! ## The effect of `makeAvailable`, field by field -/

theorem Table.lookup_insert {V : Type} (m : List (String × V)) (k k' : String) (v : V) :
    Table.lookup (Table.insert m k v) k' = if k = k' then some v else Table.lookup m k' := by
  by_cases h : k = k'
  · subst h; simp [Table.lookup_insert_self]
  · simp [h, Table.lookup_insert_ne m v h]

theorem lookup_QFile_open (env : Env) (disk : List (String × Bytes)) (path file : String) :
    Table.lookup (QFile_open env disk path).2 file =
      if env.canOpen path = true ∧ env.fileOf path = file then some []
      else Table.lookup disk file := by
  unfold QFile_open
  cases h : env.canOpen path
  · simp
  · simp [Table.lookup_insert]

theorem makeAvailable_result (env : Env) (k : String) (s : State) :
    (makeAvailable env k s).1 = (decide (k ∈ s.currentlyDownloading) || missCase env k s) := by
  by_cases hk : k ∈ s.currentlyDownloading
  · rw [makeAvailable_inflight env k s hk]; simp [hk]
  by_cases ht : Table.contains s._imageTable k = true
  · rw [makeAvailable_loaded env k s hk ht]; simp [hk, ht, missCase]
  have ht' : Table.contains s._imageTable k = false := by simpa using ht
  by_cases hf : QDir_exists env s.disk env._cacheDir (k ++ env._extension) = true
  · rw [makeAvailable_cached env k s hk ht' hf]
    have hf2 : QFile_exists env s.disk (cacheFile env k) = true := hf
    simp [hk, ht', missCase, hf2]
  have hf' : QDir_exists env s.disk env._cacheDir (k ++ env._extension) = false := by simpa using hf
  rw [makeAvailable_miss env k s hk ht' hf']
  have hf2 : QFile_exists env s.disk (cacheFile env k) = false := hf'
  simp [hk, ht', missCase, hf2]

theorem makeAvailable_state (env : Env) (k : String) (s : State) :
    (makeAvailable env k s).2 =
      { _imageTable := if cachedCase env k s then
            Table.insert s._imageTable k (some (QImage_load env s.disk (cacheFile env k)).2)
          else s._imageTable,
        currentlyDownloading := if missCase env k s then insert k s.currentlyDownloading
          else s.currentlyDownloading,
        activeDownloadCount := if missCase env k s then s.activeDownloadCount + 1
          else s.activeDownloadCount,
        disk := if missCase env k s then (QFile_open env s.disk (cacheFile env k)).2
          else s.disk,
        requests := if missCase env k s then s.requests ++ [env.arg env._urlFormat k]
          else s.requests,
        handlers := if missCase env k s then s.handlers ++ [handlerFor env k] else s.handlers } := by
  by_cases hk : k ∈ s.currentlyDownloading
  · rw [makeAvailable_inflight env k s hk]; simp [hk, missCase, cachedCase]
  by_cases ht : Table.contains s._imageTable k = true
  · rw [makeAvailable_loaded env k s hk ht]; simp [hk, ht, missCase, cachedCase]
  have ht' : Table.contains s._imageTable k = false := by simpa using ht
  by_cases hf : QDir_exists env s.disk env._cacheDir (k ++ env._extension) = true
  · rw [makeAvailable_cached env k s hk ht' hf]
    have hf2 : QFile_exists env s.disk (cacheFile env k) = true := hf
    simp [hk, ht', missCase, cachedCase, hf2, loadImageFile]
  have hf' : QDir_exists env s.disk env._cacheDir (k ++ env._extension) = false := by simpa using hf
  rw [makeAvailable_miss env k s hk ht' hf']
  have hf2 : QFile_exists env s.disk (cacheFile env k) = false := hf'
  simp [hk, ht', missCase, cachedCase, hf2]

/-! ## Calls of `makeAvailable` on keys cached in different files commute -/

theorem QImage_load_congr (env : Env) (d d' : List (String × Bytes)) (f : String)
    (h : Table.lookup d (env.fileOf f) = Table.lookup d' (env.fileOf f)) :
    QImage_load env d f = QImage_load env d' f := by
  unfold QImage_load
  rw [h]

theorem contains_congr {V : Type} (m m' : List (String × V)) (k : String)
    (h : Table.lookup m k = Table.lookup m' k) : Table.contains m k = Table.contains m' k := by
  unfold Table.contains
  rw [h]

theorem SameContents.refl (s : State) : SameContents s s :=
  ⟨fun _ => rfl, rfl, rfl, fun _ => rfl, List.Perm.refl _, List.Perm.refl _⟩

theorem SameContents.trans {s t u : State} (h1 : SameContents s t) (h2 : SameContents t u) :
    SameContents s u :=
  ⟨fun k => (h1.1 k).trans (h2.1 k), h1.2.1.trans h2.2.1, h1.2.2.1.trans h2.2.2.1,
    fun f => (h1.2.2.2.1 f).trans (h2.2.2.2.1 f), h1.2.2.2.2.1.trans h2.2.2.2.2.1,
    h1.2.2.2.2.2.trans h2.2.2.2.2.2⟩

theorem cases_congr (env : Env) (k : String) {s t : State} (h : SameContents s t) :
    cachedCase env k s = cachedCase env k t ∧ missCase env k s = missCase env k t := by
  obtain ⟨h1, h2, -, h4, -, -⟩ := h
  unfold cachedCase missCase QFile_exists
  rw [h2, contains_congr _ _ k (h1 k), contains_congr _ _ _ (h4 (env.fileOf (cacheFile env k)))]
  exact ⟨rfl, rfl⟩

theorem makeAvailable_congr (env : Env) (k : String) {s t : State} (h : SameContents s t) :
    (makeAvailable env k s).1 = (makeAvailable env k t).1 ∧
    SameContents (makeAvailable env k s).2 (makeAvailable env k t).2 := by
  obtain ⟨hc, hm⟩ := cases_congr env k h
  obtain ⟨h1, h2, h3, h4, h5, h6⟩ := h
  refine ⟨?_, ?_⟩
  · rw [makeAvailable_result, makeAvailable_result, hm, h2]
  · rw [makeAvailable_state env k s, makeAvailable_state env k t, ← hc, ← hm]
    refine ⟨?_, ?_, ?_, ?_, ?_, ?_⟩
    · intro k'
      show Table.lookup (if cachedCase env k s = true then _ else _) k' =
        Table.lookup (if cachedCase env k s = true then _ else _) k'
      by_cases hcase : cachedCase env k s = true
      · rw [if_pos hcase, if_pos hcase, Table.lookup_insert, Table.lookup_insert, h1 k',
          QImage_load_congr env _ _ _ (h4 (env.fileOf (cacheFile env k)))]
      · rw [if_neg hcase, if_neg hcase]; exact h1 k'
    · show (if missCase env k s = true then _ else _) = (if missCase env k s = true then _ else _)
      rw [h2]
    · show (if missCase env k s = true then _ else _) = (if missCase env k s = true then _ else _)
      rw [h3]
    · intro f
      show Table.lookup (if missCase env k s = true then _ else _) f =
        Table.lookup (if missCase env k s = true then _ else _) f
      by_cases hcase : missCase env k s = true
      · rw [if_pos hcase, if_pos hcase, lookup_QFile_open, lookup_QFile_open, h4 f]
      · rw [if_neg hcase, if_neg hcase]; exact h4 f
    · show List.Perm (if missCase env k s = true then _ else _)
        (if missCase env k s = true then _ else _)
      by_cases hcase : missCase env k s = true
      · rw [if_pos hcase, if_pos hcase]; exact h5.append_right _
      · rw [if_neg hcase, if_neg hcase]; exact h5
    · show List.Perm (if missCase env k s = true then _ else _)
        (if missCase env k s = true then _ else _)
      by_cases hcase : missCase env k s = true
      · rw [if_pos hcase, if_pos hcase]; exact h6.append_right _
      · rw [if_neg hcase, if_neg hcase]; exact h6

/-- A call for a key cached in another file changes neither the branch that
`makeAvailable(a)` takes nor the cache file of `a`. -/
theorem makeAvailable_frame (env : Env) {a b : String}
    (hfile : cacheFileOf env a ≠ cacheFileOf env b) (s : State) :
    (a ∈ (makeAvailable env b s).2.currentlyDownloading ↔ a ∈ s.currentlyDownloading) ∧
    Table.lookup (makeAvailable env b s).2._imageTable a = Table.lookup s._imageTable a ∧
    Table.lookup (makeAvailable env b s).2.disk (env.fileOf (cacheFile env a)) =
      Table.lookup s.disk (env.fileOf (cacheFile env a)) := by
  have hne : a ≠ b := cacheFileOf_ne env hfile
  have hpath : env.fileOf (cacheFile env b) ≠ env.fileOf (cacheFile env a) := Ne.symm hfile
  rw [makeAvailable_state env b s]
  refine ⟨?_, ?_, ?_⟩
  · show a ∈ (if missCase env b s = true then _ else _) ↔ _
    by_cases hcase : missCase env b s = true
    · rw [if_pos hcase, Finset.mem_insert]
      exact ⟨fun h => h.resolve_left hne, Or.inr⟩
    · rw [if_neg hcase]
  · show Table.lookup (if cachedCase env b s = true then _ else _) a = _
    by_cases hcase : cachedCase env b s = true
    · rw [if_pos hcase, Table.lookup_insert_ne _ _ (Ne.symm hne)]
    · rw [if_neg hcase]
  · show Table.lookup (if missCase env b s = true then _ else _) (env.fileOf (cacheFile env a)) = _
    by_cases hcase : missCase env b s = true
    · rw [if_pos hcase, lookup_QFile_open_ne env s.disk (cacheFile env b) hpath]
    · rw [if_neg hcase]

theorem cases_frame (env : Env) {a b : String}
    (hfile : cacheFileOf env a ≠ cacheFileOf env b) (s : State) :
    cachedCase env a (makeAvailable env b s).2 = cachedCase env a s ∧
    missCase env a (makeAvailable env b s).2 = missCase env a s := by
  obtain ⟨h1, h2, h3⟩ := makeAvailable_frame env hfile s
  unfold cachedCase missCase QFile_exists
  rw [contains_congr _ _ a h2, contains_congr _ _ _ h3]
  simp [h1]

theorem Table.lookup_insert_comm {V : Type} (m : List (String × V)) {a b : String}
    (hne : a ≠ b) (va vb : V) (k : String) :
    Table.lookup (Table.insert (Table.insert m b vb) a va) k =
      Table.lookup (Table.insert (Table.insert m a va) b vb) k := by
  simp only [Table.lookup_insert]
  by_cases ha : a = k
  · have hb : ¬ b = k := fun e => hne (ha.trans e.symm)
    rw [if_pos ha, if_neg hb, if_pos ha]
  · rw [if_neg ha, if_neg ha]

theorem lookup_QFile_open_comm (env : Env) (disk : List (String × Bytes)) {p q : String}
    (h : env.fileOf p ≠ env.fileOf q) (f : String) :
    Table.lookup (QFile_open env (QFile_open env disk q).2 p).2 f =
      Table.lookup (QFile_open env (QFile_open env disk p).2 q).2 f := by
  simp only [lookup_QFile_open]
  by_cases hp : env.canOpen p = true ∧ env.fileOf p = f
  · have hq : ¬ (env.canOpen q = true ∧ env.fileOf q = f) :=
      fun hq => h (hp.2.trans hq.2.symm)
    rw [if_pos hp, if_neg hq, if_pos hp]
  · rw [if_neg hp, if_neg hp]

theorem perm_append_pair {α : Type} (l : List α) (x y : α) :
    (l ++ [x, y]).Perm (l ++ [y, x]) :=
  List.Perm.append_left l (List.Perm.swap _ _ _)

theorem makeAvailable_swap (env : Env) {a b : String}
    (hfile : cacheFileOf env a ≠ cacheFileOf env b) (s : State) :
    (makeAvailable env a (makeAvailable env b s).2).1 = (makeAvailable env a s).1 ∧
    (makeAvailable env b (makeAvailable env a s).2).1 = (makeAvailable env b s).1 ∧
    SameContents (makeAvailable env a (makeAvailable env b s).2).2
      (makeAvailable env b (makeAvailable env a s).2).2 := by
  have hne : a ≠ b := cacheFileOf_ne env hfile
  have hpath : env.fileOf (cacheFile env a) ≠ env.fileOf (cacheFile env b) := hfile
  obtain ⟨fa1, -, fa3⟩ := makeAvailable_frame env hfile s
  obtain ⟨fb1, -, fb3⟩ := makeAvailable_frame env (Ne.symm hfile) s
  obtain ⟨ca, ma⟩ := cases_frame env hfile s
  obtain ⟨cb, mb⟩ := cases_frame env (Ne.symm hfile) s
  refine ⟨?_, ?_, ?_⟩
  · rw [makeAvailable_result, makeAvailable_result, ma]
    simp only [fa1]
  · rw [makeAvailable_result, makeAvailable_result, mb]
    simp only [fb1]
  · rw [makeAvailable_state env a (makeAvailable env b s).2,
      makeAvailable_state env b (makeAvailable env a s).2, ca, ma, cb, mb,
      QImage_load_congr env _ _ _ fa3, QImage_load_congr env _ _ _ fb3,
      makeAvailable_state env a s, makeAvailable_state env b s]
    cases cachedCase env a s <;> cases missCase env a s <;>
      cases cachedCase env b s <;> cases missCase env b s <;>
      refine ⟨?_, ?_, ?_, ?_, ?_, ?_⟩ <;>
      first
        | exact fun f => lookup_QFile_open_comm env _ hpath f
        | simp [Table.lookup_insert_comm _ hne, perm_append_pair, Finset.Insert.comm a b]

theorem bulkDownloadLoop_cons (env : Env) (k : String) (rest : List String) (w : Bool)
    (s : State) :
    bulkDownloadLoop env (k :: rest) w s =
      bulkDownloadLoop env rest ((makeAvailable env k s).1 || w) (makeAvailable env k s).2 := by
  show (match makeAvailable env k s with
    | (true, s') => bulkDownloadLoop env rest true s'
    | (false, s') => bulkDownloadLoop env rest w s') = _
  rcases makeAvailable env k s with ⟨r, s'⟩
  cases r <;> rfl

theorem bulkDownloadLoop_congr (env : Env) (keys : List String) (w : Bool) {s t : State}
    (h : SameContents s t) :
    (bulkDownloadLoop env keys w s).1 = (bulkDownloadLoop env keys w t).1 ∧
    SameContents (bulkDownloadLoop env keys w s).2 (bulkDownloadLoop env keys w t).2 := by
  induction keys generalizing w s t with
  | nil => exact ⟨rfl, h⟩
  | cons k rest ih =>
    obtain ⟨hr, hs⟩ := makeAvailable_congr env k h
    rw [bulkDownloadLoop_cons, bulkDownloadLoop_cons, hr]
    exact ih _ hs

theorem bulkDownloadLoop_perm (env : Env) {keys keys' : List String} (hp : keys.Perm keys') :
    (∀ a ∈ keys, ∀ b ∈ keys, a ≠ b → cacheFileOf env a ≠ cacheFileOf env b) →
    ∀ (w : Bool) (s : State),
      (bulkDownloadLoop env keys w s).1 = (bulkDownloadLoop env keys' w s).1 ∧
      SameContents (bulkDownloadLoop env keys w s).2 (bulkDownloadLoop env keys' w s).2 := by
  induction hp with
  | nil => exact fun _ _ _ => ⟨rfl, SameContents.refl _⟩
  | cons x _ ih =>
    intro hfiles w s
    rw [bulkDownloadLoop_cons, bulkDownloadLoop_cons]
    exact ih (fun a ha b hb => hfiles a (List.mem_cons_of_mem _ ha) b (List.mem_cons_of_mem _ hb))
      _ _
  | swap x y l =>
    intro hfiles w s
    rw [bulkDownloadLoop_cons, bulkDownloadLoop_cons, bulkDownloadLoop_cons,
      bulkDownloadLoop_cons]
    by_cases hxy : x = y
    · subst hxy
      exact ⟨rfl, SameContents.refl _⟩
    · have hfile : cacheFileOf env x ≠ cacheFileOf env y :=
        hfiles x (List.mem_cons_of_mem _ (List.mem_cons_self _ _)) y (List.mem_cons_self _ _) hxy
      obtain ⟨h1, h2, h3⟩ := makeAvailable_swap env hfile s
      rw [h1, h2, Bool.or_left_comm]
      exact bulkDownloadLoop_congr env l _ h3
  | trans p1 _ ih1 ih2 =>
    intro hfiles w s
    obtain ⟨a1, a2⟩ := ih1 hfiles w s
    obtain ⟨b1, b2⟩ := ih2
      (fun a ha b hb => hfiles a (p1.mem_iff.2 ha) b (p1.mem_iff.2 hb)) w s
    exact ⟨a1.trans b1, a2.trans b2⟩

theorem mem_keys_iff {V : Type} (m : List (String × V)) (k : String) :
    k ∈ Table.keys m ↔ Table.contains m k = true := by
  induction m with
  | nil => simp [Table.keys, Table.contains, Table.lookup]
  | cons e rest ih =>
    obtain ⟨k', v⟩ := e
    by_cases h : k' = k
    · subst h
      simp [Table.keys, Table.contains, Table.lookup]
    · have ih' : k ∈ List.map Prod.fst rest ↔ (Table.lookup rest k).isSome = true := ih
      have hne : ¬ k = k' := fun e => h e.symm
      simp [Table.keys, Table.contains, Table.lookup, h, hne, ih']

/-- C11, as stated, fails when two keys of the list are cached in the same file.
From the empty provider, `bulkDownload(["pog", "./pog"])` starts the download of
"pog" and then loads "./pog" from the file that this download has just
opened, while `bulkDownload(["./pog", "pog"])` does the converse: the two
lists are permutations of each other, and the runs leave different
`currentlyDownloading` sets and different image-table keys. -/
theorem bulkDownload_order_matters_on_shared_file :
    ["pog", "./pog"].Perm ["./pog", "pog"] ∧
    (bulkDownload demoEnv ["pog", "./pog"] (init [])).2.currentlyDownloading = {"pog"} ∧
    (bulkDownload demoEnv ["./pog", "pog"] (init [])).2.currentlyDownloading = {"./pog"} ∧
    (bulkDownload demoEnv ["pog", "./pog"] (init [])).2.currentlyDownloading ≠
      (bulkDownload demoEnv ["./pog", "pog"] (init [])).2.currentlyDownloading ∧
    Table.keys (bulkDownload demoEnv ["pog", "./pog"] (init [])).2._imageTable = ["./pog"] ∧
    Table.keys (bulkDownload demoEnv ["./pog", "pog"] (init [])).2._imageTable = ["pog"] :=
  ⟨by decide, by decide, by decide, by decide, by decide, by decide⟩

/-- C11, amended (order irrelevance). On two key lists that are permutations of each
other and in which different keys are cached in different files,
`bulkDownload` from the same state returns the same boolean and leaves the same
set of image-table keys (with the same image under each key), the same
`currentlyDownloading`, the same `activeDownloadCount`, and the same started
downloads (handlers and GET requests) up to their order. -/
theorem bulkDownload_perm (env : Env) (s : State) (keys keys' : List String)
    (hp : keys.Perm keys')
    (hfiles : ∀ a ∈ keys, ∀ b ∈ keys, a ≠ b → cacheFileOf env a ≠ cacheFileOf env b) :
    (bulkDownload env keys s).1 = (bulkDownload env keys' s).1 ∧
    (Table.keys (bulkDownload env keys s).2._imageTable).toFinset =
      (Table.keys (bulkDownload env keys' s).2._imageTable).toFinset ∧
    (∀ k, Table.lookup (bulkDownload env keys s).2._imageTable k =
      Table.lookup (bulkDownload env keys' s).2._imageTable k) ∧
    (bulkDownload env keys s).2.currentlyDownloading =
      (bulkDownload env keys' s).2.currentlyDownloading ∧
    (bulkDownload env keys s).2.activeDownloadCount =
      (bulkDownload env keys' s).2.activeDownloadCount ∧
    (bulkDownload env keys s).2.handlers.Perm (bulkDownload env keys' s).2.handlers ∧
    (bulkDownload env keys s).2.requests.Perm (bulkDownload env keys' s).2.requests := by
  obtain ⟨hr, h1, h2, h3, -, h5, h6⟩ := bulkDownloadLoop_perm env hp hfiles false s
  refine ⟨hr, ?_, h1, h2, h3, h6, h5⟩
  ext k
  rw [List.mem_toFinset, List.mem_toFinset, mem_keys_iff, mem_keys_iff]
  exact Eq.congr (contains_congr _ _ k (h1 k)) rfl

theorem bulkDownload_perm_witness :
    ["pog", "kappa", "lul"].Perm ["lul", "pog", "kappa"] ∧
    (∀ a ∈ ["pog", "kappa", "lul"], ∀ b ∈ ["pog", "kappa", "lul"], a ≠ b →
      cacheFileOf demoEnv a ≠ cacheFileOf demoEnv b) ∧
    (bulkDownload demoEnv ["pog", "kappa", "lul"] (init [("/cache/kappa.png", [5])])).1 =
      (bulkDownload demoEnv ["lul", "pog", "kappa"] (init [("/cache/kappa.png", [5])])).1 ∧
    (bulkDownload demoEnv ["pog", "kappa", "lul"]
      (init [("/cache/kappa.png", [5])])).2.currentlyDownloading =
      (bulkDownload demoEnv ["lul", "pog", "kappa"]
        (init [("/cache/kappa.png", [5])])).2.currentlyDownloading ∧
    (bulkDownload demoEnv ["pog", "kappa", "lul"] (init [("/cache/kappa.png", [5])])).2.requests =
      ["https://cdn.example/pog", "https://cdn.example/lul"] ∧
    (bulkDownload demoEnv ["lul", "pog", "kappa"] (init [("/cache/kappa.png", [5])])).2.requests =
      ["https://cdn.example/lul", "https://cdn.example/pog"] :=
  ⟨by decide, by decide,
    (bulkDownload_perm demoEnv (init [("/cache/kappa.png", [5])]) ["pog", "kappa", "lul"]
      ["lul", "pog", "kappa"] (by decide) (by decide)).1,
    (bulkDownload_perm demoEnv (init [("/cache/kappa.png", [5])]) ["pog", "kappa", "lul"]
      ["lul", "pog", "kappa"] (by decide) (by decide)).2.2.2.1,
    by decide, by decide⟩

/-! ## After a failed download -/

/-- The handler and the disk that `download` produces on a miss are those of the
constructor of `DownloadHandler`. -/
theorem makeAvailable_miss_constructs (env : Env) (k : String) (s : State)
    (hk : k ∉ s.currentlyDownloading) (ht : Table.contains s._imageTable k = false)
    (hf : QDir_exists env s.disk env._cacheDir (k ++ env._extension) = false) :
    (handlerFor env k, (makeAvailable env k s).2.disk) =
      DownloadHandler.construct env (cacheFile env k) k s.disk := by
  rw [makeAvailable_miss env k s hk ht hf]
  simp [DownloadHandler.construct, handlerFor, QFile_open_fst]

theorem idc_disk_success (env : Env) (dh : DownloadHandler) (filename : String) (s : State) :
    (individualDownloadComplete env dh filename false s).2.disk = s.disk := by
  by_cases h : s.activeDownloadCount > 0 <;>
    simp [individualDownloadComplete, loadImageFile, h]

theorem contains_remove_of_absent {V : Type} (m : List (String × V)) (f g : String)
    (h : Table.contains m g = false) : Table.contains (Table.remove m f) g = false := by
  by_cases e : f = g
  · subst e; exact Table.contains_remove_self _ _
  · rw [contains_congr _ _ g (Table.lookup_remove_ne m e)]; exact h

theorem missCase_iff (env : Env) (k : String) (s : State) :
    missCase env k s = true ↔
      k ∉ s.currentlyDownloading ∧ Table.contains s._imageTable k = false ∧
        QFile_exists env s.disk (cacheFile env k) = false := by
  simp [missCase, and_assoc]

theorem missCase_after_failure (env : Env) (s : State) (dh : DownloadHandler)
    (hi : Inv env s) (hlive : dh ∈ s.handlers) :
    missCase env dh.key (individualDownloadComplete env dh dh.filename true s).2 = true := by
  have hkey : dh.key ∈ s.currentlyDownloading :=
    (hi.live dh.key).2 (List.mem_map_of_mem _ hlive)
  rw [missCase_iff, idc_currentlyDownloading, idc_table_error, idc_disk_error,
    hi.file dh hlive]
  exact ⟨Finset.not_mem_erase _ _, hi.fresh _ hkey, Table.contains_remove_self _ _⟩

theorem missCase_bulkDownloadLoop (env : Env) (k : String) (keys : List String) (w : Bool)
    (s : State) (hfile : ∀ key ∈ keys, cacheFileOf env key ≠ cacheFileOf env k) :
    missCase env k (bulkDownloadLoop env keys w s).2 = missCase env k s := by
  induction keys generalizing w s with
  | nil => rfl
  | cons key rest ih =>
    have hkey : cacheFileOf env k ≠ cacheFileOf env key :=
      Ne.symm (hfile key (List.mem_cons_self _ _))
    have hrest : ∀ key' ∈ rest, cacheFileOf env key' ≠ cacheFileOf env k :=
      fun key' hm => hfile key' (List.mem_cons_of_mem _ hm)
    rw [bulkDownloadLoop_cons, ih _ _ hrest, (cases_frame env hkey s).2]

theorem missCase_callback (env : Env) (k : String) (dh : DownloadHandler) (filename : String)
    (hadError : Bool) (s : State) (hne : dh.key ≠ k) (hm : missCase env k s = true) :
    missCase env k (individualDownloadComplete env dh filename hadError s).2 = true := by
  obtain ⟨hk, ht, hf⟩ := (missCase_iff env k s).1 hm
  rw [missCase_iff, idc_currentlyDownloading]
  refine ⟨fun hin => hk (Finset.mem_of_mem_erase hin), ?_, ?_⟩
  · cases hadError
    · rw [idc_table_success, Table.contains_insert_ne _ _ hne]; exact ht
    · rw [idc_table_error]; exact ht
  · cases hadError
    · rw [idc_disk_success]; exact hf
    · rw [idc_disk_error]; exact contains_remove_of_absent _ _ _ hf

theorem elsewhere_keeps (env : Env) (k : String) {s t : State} (h : Elsewhere env k s t)
    (hm : missCase env k s = true) : missCase env k t = true := by
  induction h with
  | done => exact hm
  | call key hfile _ ih =>
    exact ((cases_frame env (Ne.symm hfile) _).2).trans ih
  | bulk keys hfile _ ih =>
    exact (missCase_bulkDownloadLoop env k keys false _ hfile).trans ih
  | callback dh hadError _ hne _ ih =>
    exact missCase_callback env k dh _ hadError _ hne ih

/-- C19, as stated, fails when a key cached in the same file is requested in
between. The download of "kappa" fails and its partial file is deleted; then
`makeAvailable("./kappa")`, an event for another key, starts a download that
opens the very file in which "kappa" is cached; the next
`makeAvailable("kappa")` finds that file, loads it and returns false, without
a new session and without a change of `activeDownloadCount`. -/
theorem retry_after_request_on_shared_file :
    "./kappa" ≠ "kappa" ∧
    Reachable demoEnv (makeAvailable demoEnv "kappa" (init [])).2 ∧
    handlerFor demoEnv "kappa" ∈ (makeAvailable demoEnv "kappa" (init [])).2.handlers ∧
    (makeAvailable demoEnv "kappa"
      (makeAvailable demoEnv "./kappa"
        (individualDownloadComplete demoEnv (handlerFor demoEnv "kappa")
          (handlerFor demoEnv "kappa").filename true
          (makeAvailable demoEnv "kappa" (init [])).2).2).2).1 = false ∧
    (makeAvailable demoEnv "kappa"
      (makeAvailable demoEnv "./kappa"
        (individualDownloadComplete demoEnv (handlerFor demoEnv "kappa")
          (handlerFor demoEnv "kappa").filename true
          (makeAvailable demoEnv "kappa" (init [])).2).2).2).2.activeDownloadCount =
      (makeAvailable demoEnv "./kappa"
        (individualDownloadComplete demoEnv (handlerFor demoEnv "kappa")
          (handlerFor demoEnv "kappa").filename true
          (makeAvailable demoEnv "kappa" (init [])).2).2).2.activeDownloadCount :=
  ⟨by decide, Reachable.next (Reachable.start []) (Step.call _ _), by decide, by decide,
    by decide⟩

/-- C19, amended (retry after a failure). Let the download of `dh.key` be running in
a reachable state and let its terminal callback arrive with `hadError = true`.
After any further events that concern neither this key nor a key cached in
the same file, the next call of `makeAvailable` for it returns true, issues a
new GET request and creates a new handler for the key, inserts the key, which
had left it, into `currentlyDownloading` again and increases
`activeDownloadCount` by exactly 1. -/
theorem failed_download_retry (env : Env) (s t : State) (dh : DownloadHandler)
    (h : Reachable env s) (hlive : dh ∈ s.handlers)
    (hquiet : Elsewhere env dh.key (individualDownloadComplete env dh dh.filename true s).2 t) :
    dh.key ∉ t.currentlyDownloading ∧
    (makeAvailable env dh.key t).1 = true ∧
    (makeAvailable env dh.key t).2.requests = t.requests ++ [env.arg env._urlFormat dh.key] ∧
    (makeAvailable env dh.key t).2.handlers = t.handlers ++ [handlerFor env dh.key] ∧
    (makeAvailable env dh.key t).2.currentlyDownloading = insert dh.key t.currentlyDownloading ∧
    (makeAvailable env dh.key t).2.activeDownloadCount = t.activeDownloadCount + 1 := by
  have hi := inv_of_reachable env h
  have hm : missCase env dh.key t = true :=
    elsewhere_keeps env dh.key hquiet (missCase_after_failure env s dh hi hlive)
  obtain ⟨hk, ht, hf⟩ := (missCase_iff env dh.key t).1 hm
  rw [makeAvailable_miss env dh.key t hk ht hf]
  exact ⟨hk, rfl, rfl, rfl, rfl, rfl⟩

theorem failed_download_retry_witness :
    Reachable demoEnv (bulkDownload demoEnv ["pog", "kappa"] (init [])).2 ∧
    cacheFileOf demoEnv "lul" ≠ cacheFileOf demoEnv "kappa" ∧
    (makeAvailable demoEnv "kappa"
      (makeAvailable demoEnv "lul"
        (individualDownloadComplete demoEnv (handlerFor demoEnv "kappa")
          (handlerFor demoEnv "kappa").filename true
          (bulkDownload demoEnv ["pog", "kappa"] (init [])).2).2).2).1 = true ∧
    (makeAvailable demoEnv "kappa"
      (makeAvailable demoEnv "lul"
        (individualDownloadComplete demoEnv (handlerFor demoEnv "kappa")
          (handlerFor demoEnv "kappa").filename true
          (bulkDownload demoEnv ["pog", "kappa"] (init [])).2).2).2).2.activeDownloadCount = 3 :=
  ⟨Reachable.next (Reachable.start []) (Step.bulk _ _), by decide,
    (failed_download_retry demoEnv (bulkDownload demoEnv ["pog", "kappa"] (init [])).2 _
      (handlerFor demoEnv "kappa")
      (Reachable.next (Reachable.start []) (Step.bulk _ _)) (by decide)
      (Elsewhere.call "lul" (by decide) (Elsewhere.done _))).2.1,
    by decide⟩

end Orion
